import Mathlib

/-!
# IgrOS kernel: x86_64 paging (src/arch/x86_64/paging.cpp)

A shallow embedding of the physical frame allocator, the table factory, the
mapping functions and the address translator of `igros::arch::paging`.

Machine words are natural numbers; every place where the C++ arithmetic on
`std::size_t` or on a pointer can wrap is reduced modulo `2 ^ 64` explicitly.
Physical memory is a map from addresses to the pointer-sized word stored
there: the source only ever loads and stores 64-bit words (`next` links and
table entries).  Distinct addresses are distinct cells, which is exact whenever
the addresses used are 8-byte aligned, as frames, tables and the static are.
The static `paging::mFreePages` is itself a word of memory, located at the
address `freeVar`, because the source initialises it with its own address and
then dereferences it.  A pointer is its address, and `nullptr` is 0.
-/

namespace igros.arch

/-! ## Machine state -/

/-- State of the machine as far as paging.cpp can observe it: physical memory,
the address of the static `paging::mFreePages`, and the control registers. -/
structure Machine where
  /-- Word stored at each address. -/
  mem : Nat → Nat
  /-- Address of the static variable, `&paging::mFreePages`. -/
  freeVar : Nat
  /-- Control register 0 (paging enable bit). -/
  cr0 : Nat
  /-- Control register 3 (base of the active top table). -/
  cr3 : Nat
  /-- Control register 4 (PAE bit). -/
  cr4 : Nat

/-- Word size of the machine: `std::size_t` and pointers are 64 bits wide. -/
def WORD : Nat := 2 ^ 64

/-- Store of one word: `*addr = val`. -/
def Machine.write (s : Machine) (addr val : Nat) : Machine :=
  { s with mem := fun a => if a = addr then val else s.mem a }

/-- Current value of the static `paging::mFreePages` (the free-list head). -/
def Machine.mFreePages (s : Machine) : Nat :=
  s.mem s.freeVar

/-! ## Parts of absent headers -/

/-- Modelled from the spec: `klib::kalignUp` of the absent klib/kalign.hpp;
spec 4.1 says `init` "rounds startAddress up to the next 4 KiB boundary", the
second argument is the binary logarithm of the alignment. -/
def kalignUp (ptr offset : Nat) : Nat :=
  ((ptr + (2 ^ offset - 1)) / 2 ^ offset * 2 ^ offset) % WORD

/-- Modelled from the spec: `klib::kalignCheck` of the absent klib/kalign.hpp;
the spec calls an address accepted by it "4 KiB-aligned" for offset 12. -/
def kalignCheck (ptr offset : Nat) : Bool :=
  ptr % 2 ^ offset == 0

/-- Modelled from the spec: `klib::kmemset` of the absent klib/kmemory.hpp;
spec 4.2 says the table factory "zero-fills the entire frame", and the callers
pass `sizeof(table) >> 2` as the count, so the count is in 32-bit units and the
filled range is `[dst, dst + 4 * count)`.  Every caller passes the value 0.
The spec describes the fill for the frame of a successful allocation only:
what the routine does with a null destination is not known, and no statement
below is settled on the value this definition takes there. -/
def kmemset (s : Machine) (dst count val : Nat) : Machine :=
  { s with mem := fun a => if dst ≤ a ∧ a < dst + 4 * count then val else s.mem a }

/-- Modelled from the spec: size in bytes of each of `pml4_t`,
`directoryPointer_t`, `directory_t`, `table_t` and `page_t` of the absent
paging.hpp; spec 3 says each level "is exactly one Physical Frame". -/
def SIZEOF_TABLE : Nat := 4096

/-- Modelled from the spec: `PAGE_SHIFT` of the absent paging.hpp (4 KiB frames). -/
def PAGE_SHIFT : Nat := 12

/-- Modelled from the spec: `flags_t::CLEAR` of the absent paging.hpp. -/
def CLEAR : Nat := 0

/-- Modelled from the spec: `flags_t::PRESENT` of the absent paging.hpp, bit 0
of an x86-64 table entry. -/
def PRESENT : Nat := 0x1

/-- Modelled from the spec: `flags_t::WRITABLE` of the absent paging.hpp, bit 1
of an x86-64 table entry. -/
def WRITABLE : Nat := 0x2

/-- Modelled from the spec: `flags_t::HUGE` of the absent paging.hpp, bit 7 of
an x86-64 table entry. -/
def HUGE : Nat := 0x80

/-- Modelled from the spec: `flags_t::FLAGS_MASK` of the absent paging.hpp;
spec 3 says the low 12 bits of an entry hold the flags. -/
def FLAGS_MASK : Nat := 0xFFF

/-- Modelled from the spec: `flags_t::PHYS_ADDR_MASK` of the absent paging.hpp;
the bits of a 64-bit entry above the 12 flag bits. -/
def PHYS_ADDR_MASK : Nat := 0xFFFFFFFFFFFFF000

/-! ## Frame allocator -/

/-- Value of the local `numOfPages` of `paging::heap`. -/
def heapNumOfPages (phys size : Nat) : Nat :=
  let tempPhys := kalignUp phys 12
  let tempSize := (size + WORD - (tempPhys + WORD - phys) % WORD) % WORD
  tempSize >>> 12

/-- The `for` loop of `paging::heap`: with `i` the loop variable and `n` the
number of iterations still to run, each iteration stores
`page[i].next = &page[i - 1]`. -/
def heapLink (page : Nat) : Nat → Nat → Machine → Machine
  | 0, _, s => s
  | n + 1, i, s =>
    heapLink page n (i + 1)
      (s.write ((page + i * SIZEOF_TABLE) % WORD) ((page + (i - 1) * SIZEOF_TABLE) % WORD))

/-- Embedding of `paging::heap(phys, size)`. -/
def heap (s : Machine) (phys size : Nat) : Machine :=
  let tempPhys := kalignUp phys 12
  let numOfPages := heapNumOfPages phys size
  if numOfPages = 0 then s
  else
    let page := tempPhys
    let s1 := s.write page s.mFreePages
    let s2 := heapLink page (numOfPages - 1) 1 s1
    s2.write s2.freeVar ((page + ((numOfPages + WORD - 2) % WORD) * SIZEOF_TABLE) % WORD)

/-- Embedding of `paging::allocate()`: the returned pointer (0 is `nullptr`)
and the machine afterwards. -/
def allocate (s : Machine) : Nat × Machine :=
  if s.mem s.mFreePages ≠ s.mFreePages then
    let addr := s.mFreePages
    (addr, s.write s.freeVar (s.mem addr))
  else
    (0, s)

/-- Embedding of `paging::deallocate(page)`. -/
def deallocate (s : Machine) (page : Nat) : Machine :=
  if ¬ kalignCheck page 12 then s
  else
    let s1 := s.write page s.mFreePages
    s1.write s1.freeVar page

/-! ## Table factory -/

/-- Embedding of `paging::makePML4()`: allocate a frame and clear it. -/
def makePML4 (s : Machine) : Nat × Machine :=
  let r := allocate s
  (r.1, kmemset r.2 r.1 (SIZEOF_TABLE >>> 2) CLEAR)

/-- Embedding of `paging::makeDirectoryPointer()`. -/
def makeDirectoryPointer (s : Machine) : Nat × Machine :=
  let r := allocate s
  (r.1, kmemset r.2 r.1 (SIZEOF_TABLE >>> 2) CLEAR)

/-- Embedding of `paging::makeDirectory()`. -/
def makeDirectory (s : Machine) : Nat × Machine :=
  let r := allocate s
  (r.1, kmemset r.2 r.1 (SIZEOF_TABLE >>> 2) CLEAR)

/-- Embedding of `paging::makeTable()`. -/
def makeTable (s : Machine) : Nat × Machine :=
  let r := allocate s
  (r.1, kmemset r.2 r.1 (SIZEOF_TABLE >>> 2) CLEAR)

/-! ## Hierarchy manager -/

/-- Embedding of the four overloads of `paging::checkFlags(entry, flags)`,
which share one body and differ only in the pointer type of the entry. -/
def checkFlags (entry flags : Nat) : Bool :=
  let maskedFlags := flags &&& FLAGS_MASK
  maskedFlags != (entry &&& maskedFlags)

/-- Embedding of `paging::setDirectory(dir)`. -/
def setDirectory (s : Machine) (dir : Nat) : Machine :=
  { s with cr3 := dir &&& 0x7FFFFFFF }

/-- Embedding of `paging::enable()`. -/
def enable (s : Machine) : Machine :=
  { s with cr0 := s.cr0 ||| 0x0000000080000000 }

/-- Embedding of `paging::enablePAE()`. -/
def enablePAE (s : Machine) : Machine :=
  { s with cr4 := s.cr4 ||| 0x0000000000000020 }

/-- The `for` loop of `paging::mapPML4`: `i` is the loop variable, `n` the
number of iterations still to run; the table pointer is a local value. -/
def mapPML4Loop (pml4 phys flags : Nat) : Nat → Nat → Machine → Machine
  | 0, _, s => s
  | n + 1, i, s =>
    let dirPtr := (phys + (i <<< PAGE_SHIFT)) % WORD
    mapPML4Loop pml4 phys flags n (i + 1)
      (s.write ((pml4 + 8 * i) % WORD) (dirPtr ||| (flags &&& FLAGS_MASK)))

/-- Embedding of `paging::mapPML4(pml4, phys, virt, flags)`. -/
def mapPML4 (s : Machine) (pml4 phys virt flags : Nat) : Machine :=
  if ¬ kalignCheck phys PAGE_SHIFT ∨ ¬ kalignCheck virt PAGE_SHIFT then s
  else mapPML4Loop pml4 phys flags (SIZEOF_TABLE >>> 3) 0 s

/-- The `for` loops of `paging::mapDirectoryPointer` and `paging::mapDirectory`:
the table is reached through a reference, so every iteration loads the table
pointer from the entry at `ref` before it stores entry `i` of that table.  The
loop is exact as long as the pointer loaded is 8-byte aligned; a pointer that
carries flag bits gives unaligned stores, which one cell per address does not
render. -/
def mapLoop (ref phys flags : Nat) : Nat → Nat → Machine → Machine
  | 0, _, s => s
  | n + 1, i, s =>
    let page := (phys + (i <<< PAGE_SHIFT)) % WORD
    mapLoop ref phys flags n (i + 1)
      (s.write ((s.mem ref + 8 * i) % WORD) (page ||| (flags &&& FLAGS_MASK)))

/-- Embedding of `paging::mapDirectoryPointer(pml4, phys, virt, flags)`;
`dirPtrRef` is the address the reference `dirPtr` is bound to. -/
def mapDirectoryPointer (s : Machine) (pml4 phys virt flags : Nat) : Machine :=
  if ¬ kalignCheck phys PAGE_SHIFT ∨ ¬ kalignCheck virt PAGE_SHIFT then s
  else
    let pml4ID := (virt >>> 39) &&& 0x1FF
    let dirPtrRef := (pml4 + 8 * pml4ID) % WORD
    let s1 :=
      if ¬ checkFlags (s.mem dirPtrRef) PRESENT then
        let r := makeDirectoryPointer s
        r.2.write dirPtrRef r.1
      else s
    let s2 := mapLoop dirPtrRef phys flags (SIZEOF_TABLE >>> 3) 0 s1
    s2.write dirPtrRef ((s2.mem dirPtrRef &&& 0x7FFFFFFF) ||| (flags &&& FLAGS_MASK))

/-- Embedding of `paging::mapDirectory(pml4, phys, virt, flags)`; `dirPtrRef`
and `dirRef` are the addresses the references `dirPtr` and `dir` are bound to. -/
def mapDirectory (s : Machine) (pml4 phys virt flags : Nat) : Machine :=
  if ¬ kalignCheck phys 12 ∨ ¬ kalignCheck virt 12 then s
  else
    let pml4ID := (virt >>> 39) &&& 0x1FF
    let dirPtrID := (virt >>> 30) &&& 0x1FF
    let dirPtrRef := (pml4 + 8 * pml4ID) % WORD
    let s1 :=
      if ¬ checkFlags (s.mem dirPtrRef) PRESENT then
        let r := makeDirectoryPointer s
        r.2.write dirPtrRef r.1
      else s
    let dirRef := (s1.mem dirPtrRef + 8 * dirPtrID) % WORD
    let s2 :=
      if ¬ checkFlags (s1.mem dirRef) PRESENT then
        let r := makeDirectory s1
        r.2.write dirRef r.1
      else s1
    let s3 := mapLoop dirRef phys flags (SIZEOF_TABLE >>> 3) 0 s2
    let s4 := s3.write dirPtrRef ((s3.mem dirPtrRef &&& 0x7FFFFFFF) ||| (flags &&& FLAGS_MASK))
    s4.write dirRef ((s4.mem dirRef &&& 0x7FFFFFFF) ||| (flags &&& FLAGS_MASK))

/-- Embedding of `paging::mapPage(pml4, phys, virt, flags)` (explicit top
table); `dirPtrRef` and `dirRef` are the addresses the references `dirPtr` and
`dir` are bound to.  The source takes the raw entry as the table pointer; when
that entry carries flag bits in its low three bits the access is unaligned and
overlaps two words, which one cell per address does not render: the runs on
which the embedding is exact are those of `mapPageExact`. -/
def mapPage (s : Machine) (pml4 phys virt flags : Nat) : Machine :=
  if ¬ kalignCheck phys 12 ∨ ¬ kalignCheck virt 12 then s
  else
    let pml4ID := (virt >>> 39) &&& 0x1FF
    let dirPtrID := (virt >>> 30) &&& 0x1FF
    let dirID := (virt >>> 21) &&& 0x1FF
    let dirPtrRef := (pml4 + 8 * pml4ID) % WORD
    let s1 :=
      if ¬ checkFlags (s.mem dirPtrRef) PRESENT then
        let r := makeDirectoryPointer s
        r.2.write dirPtrRef r.1
      else s
    let dirRef := (s1.mem dirPtrRef + 8 * dirPtrID) % WORD
    let s2 :=
      if ¬ checkFlags (s1.mem dirRef) PRESENT then
        let r := makeDirectory s1
        r.2.write dirRef r.1
      else s1
    let s3 := s2.write dirPtrRef ((s2.mem dirPtrRef &&& 0x7FFFFFFF) ||| (flags &&& FLAGS_MASK))
    let s4 := s3.write ((s3.mem dirRef + 8 * dirID) % WORD) (phys ||| HUGE ||| (flags &&& FLAGS_MASK))
    s4.write dirRef ((s4.mem dirRef &&& 0x7FFFFFFF) ||| (flags &&& FLAGS_MASK))

/-- Embedding of the overload `paging::mapPage(phys, virt, flags)` that works
on the active top table: it reads the table base from CR3, maps through the
explicit-table variant, then reloads CR3 and enables paging. -/
def mapPageActive (s : Machine) (phys virt flags : Nat) : Machine :=
  let pml4 := s.cr3
  let s1 := mapPage s pml4 phys virt flags
  enable (setDirectory s1 pml4)

/-! ## Address translator -/

/-- Embedding of `paging::toPhys(virt)`; 0 is `nullptr`. -/
def toPhys (s : Machine) (virt : Nat) : Nat :=
  let pml4ID := (virt >>> 39) &&& 0x1FF
  let dirPtrID := (virt >>> 30) &&& 0x1FF
  let dirID := (virt >>> 21) &&& 0x1FF
  let pml4 := s.cr3
  let dirPtr := s.mem ((pml4 + 8 * pml4ID) % WORD)
  if ¬ checkFlags dirPtr PRESENT then 0
  else
    let dir := s.mem ((dirPtr + 8 * dirPtrID) % WORD)
    if ¬ checkFlags dir PRESENT then 0
    else
      let page := s.mem ((dir + 8 * dirID) % WORD)
      if ¬ checkFlags page PRESENT then 0
      else
        let address := page &&& PHYS_ADDR_MASK
        let offset := virt &&& FLAGS_MASK
        address ||| offset

/-! ## The free list as a data structure -/

/-- The intrusive free list of spec 3: `FreeList s head fs` says that the
frames linked from `head` through their first word are exactly `fs`, in order,
that each of them is a 4 KiB-aligned frame, that none occurs twice, and that
the chain ends at the static `mFreePages` itself (the self-referencing
sentinel of its initialiser). -/
def FreeList (s : Machine) : Nat → List Nat → Prop
  | head, [] => head = s.freeVar
  | head, f :: fs =>
    head = f ∧ f ≠ s.freeVar ∧ f % 4096 = 0 ∧ f ∉ fs ∧ FreeList s (s.mem f) fs

/-- Decision procedure for `FreeList`. -/
def FreeList.decide (s : Machine) : (head : Nat) → (fs : List Nat) → Decidable (FreeList s head fs)
  | head, [] => inferInstanceAs (Decidable (head = s.freeVar))
  | head, f :: fs =>
    have : Decidable (FreeList s (s.mem f) fs) := FreeList.decide s (s.mem f) fs
    inferInstanceAs
      (Decidable (head = f ∧ f ≠ s.freeVar ∧ f % 4096 = 0 ∧ f ∉ fs ∧ FreeList s (s.mem f) fs))

instance (s : Machine) (head : Nat) (fs : List Nat) : Decidable (FreeList s head fs) :=
  FreeList.decide s head fs

/-! ## Concrete machines -/

/-- Machine at kernel entry: memory is clear except for the static
`mFreePages`, placed at 0x10F008, which holds its own address (line 37 of
paging.cpp); paging is off. -/
def bootMachine : Machine :=
  { mem := fun a => if a = 0x10F008 then 0x10F008 else 0
    freeVar := 0x10F008
    cr0 := 0
    cr3 := 0
    cr4 := 0 }

/-- Frame pool seeded as `paging::init` does it, `heap(kernelEnd, 4096 << 6)`,
with the kernel image ending at 0x110000. -/
def pooledMachine : Machine :=
  heap bootMachine 0x110000 (4096 <<< 6)

/-- Address of the top table returned by `makePML4` on `pooledMachine`. -/
def freshRoot : Nat :=
  (makePML4 pooledMachine).1

/-- Machine with a freshly made top table that is also the active one:
`makePML4` on `pooledMachine` followed by `setDirectory`. -/
def freshMachine : Machine :=
  setDirectory (makePML4 pooledMachine).2 freshRoot

/-- Frame pool of two whole frames: `heap(0x110000, 0x2000)` on the machine at
kernel entry. -/
def twoFrameMachine : Machine :=
  heap bootMachine 0x110000 0x2000

/-- Frame pool of three whole frames: `heap(0x110000, 0x3000)` on the machine
at kernel entry. -/
def threeFrameMachine : Machine :=
  heap bootMachine 0x110000 0x3000

/-! ## State-passing view of the translator -/

/-- Load of one word, `*addr`, as a step on the machine: the value read and
the machine afterwards. -/
def load (s : Machine) (addr : Nat) : Nat × Machine :=
  (s.mem addr, s)

/-- Modelled from the spec: `outCR3()` of the absent cr.hpp, the read of the
"top-level pointer register" of spec 6, as a step on the machine. -/
def outCR3 (s : Machine) : Nat × Machine :=
  (s.cr3, s)

/-- Embedding of `paging::toPhys(virt)` statement by statement, threading the
machine through every step it performs: the returned pointer and the machine
after the call. -/
def toPhysRun (s : Machine) (virt : Nat) : Nat × Machine :=
  let pml4ID := (virt >>> 39) &&& 0x1FF
  let dirPtrID := (virt >>> 30) &&& 0x1FF
  let dirID := (virt >>> 21) &&& 0x1FF
  let r0 := outCR3 s
  let pml4 := r0.1
  let r1 := load r0.2 ((pml4 + 8 * pml4ID) % WORD)
  let dirPtr := r1.1
  if ¬ checkFlags dirPtr PRESENT then (0, r1.2)
  else
    let r2 := load r1.2 ((dirPtr + 8 * dirPtrID) % WORD)
    let dir := r2.1
    if ¬ checkFlags dir PRESENT then (0, r2.2)
    else
      let r3 := load r2.2 ((dir + 8 * dirID) % WORD)
      let page := r3.1
      if ¬ checkFlags page PRESENT then (0, r3.2)
      else
        let address := page &&& PHYS_ADDR_MASK
        let offset := virt &&& FLAGS_MASK
        (address ||| offset, r3.2)

/-! ## Boot-time setup -/

/-- Embedding of `paging::init()`.  `kernelEnd` is the address of the linker
symbol `_SECTION_KERNEL_END_`; `except::install` (absent exceptions.hpp) only
registers the fault handler and touches none of the state modelled here. -/
def init (s : Machine) (kernelEnd : Nat) : Machine :=
  let s1 := heap s kernelEnd ((4096 <<< 6) % WORD)
  let flags := WRITABLE ||| PRESENT
  let r := makePML4 s1
  let pml4 := r.1
  let s2 := mapPage r.2 pml4 0 0 flags
  let s3 := mapPage s2 pml4 0x0000000002000000 0x0000000002000000 flags
  let s4 := mapPage s3 pml4 0 0xFFFFFFFF80000000 flags
  let s5 := setDirectory s4 pml4
  let s6 := enablePAE s5
  enable s6

/-! ## Steps of `mapPage` -/

/-- The part of `paging::mapPage` before its final-level store (lines 378 to
402, alignment already checked): the machine reached, and the address the
reference `dir` is bound to. -/
def mapPageWalk (s : Machine) (pml4 virt flags : Nat) : Machine × Nat :=
  let pml4ID := (virt >>> 39) &&& 0x1FF
  let dirPtrID := (virt >>> 30) &&& 0x1FF
  let dirPtrRef := (pml4 + 8 * pml4ID) % WORD
  let s1 :=
    if ¬ checkFlags (s.mem dirPtrRef) PRESENT then
      let r := makeDirectoryPointer s
      r.2.write dirPtrRef r.1
    else s
  let dirRef := (s1.mem dirPtrRef + 8 * dirPtrID) % WORD
  let s2 :=
    if ¬ checkFlags (s1.mem dirRef) PRESENT then
      let r := makeDirectory s1
      r.2.write dirRef r.1
    else s1
  (s2.write dirPtrRef ((s2.mem dirPtrRef &&& 0x7FFFFFFF) ||| (flags &&& FLAGS_MASK)), dirRef)

/-- The final-level store of `paging::mapPage` (line 405),
`dir->tables[dirID] = phys | HUGE | (flags & FLAGS_MASK)`: the address stored
to and the entry stored. -/
def mapPageLeaf (s : Machine) (pml4 phys virt flags : Nat) : Nat × Nat :=
  let dirID := (virt >>> 21) &&& 0x1FF
  let w := mapPageWalk s pml4 virt flags
  ((w.1.mem w.2 + 8 * dirID) % WORD, phys ||| HUGE ||| (flags &&& FLAGS_MASK))

/-- A call of `paging::allocate()` on `t` that the memory of this file
renders exactly and that succeeds: the static and the head frame are aligned
words, and the frame returned is not null. -/
def allocateExact (t : Machine) : Prop :=
  t.freeVar % 8 = 0 ∧ t.mFreePages % 4096 = 0 ∧ (allocate t).1 ≠ 0

/-- Every word `paging::mapPage` touches for `virt` is a naturally aligned
64-bit word, and every table allocation it makes on the way succeeds.  These
are the runs of `mapPage` on which one cell per address is the memory of the
machine: a raw entry that carries flag bits in its low three bits, taken as a
table pointer, gives an unaligned access and is excluded. -/
def mapPageExact (s : Machine) (pml4 virt flags : Nat) : Prop :=
  let pml4ID := (virt >>> 39) &&& 0x1FF
  let dirPtrID := (virt >>> 30) &&& 0x1FF
  let dirID := (virt >>> 21) &&& 0x1FF
  let dirPtrRef := (pml4 + 8 * pml4ID) % WORD
  let s1 :=
    if ¬ checkFlags (s.mem dirPtrRef) PRESENT then
      let r := makeDirectoryPointer s
      r.2.write dirPtrRef r.1
    else s
  let dirRef := (s1.mem dirPtrRef + 8 * dirPtrID) % WORD
  let w := mapPageWalk s pml4 virt flags
  dirPtrRef % 8 = 0 ∧
  (¬ checkFlags (s.mem dirPtrRef) PRESENT → allocateExact s) ∧
  dirRef % 8 = 0 ∧
  (¬ checkFlags (s1.mem dirRef) PRESENT → allocateExact s1) ∧
  ((w.1.mem w.2 + 8 * dirID) % WORD) % 8 = 0

/-! ## Fault reporter -/

/-- The strings `paging::exHandler` selects for the `%s` conversions of its
report, in the order of the format string. -/
structure FaultReport where
  /-- First cause string of the CAUSED BY line. -/
  violation : String
  /-- Second cause string of the CAUSED BY line. -/
  fetch : String
  /-- Third cause string of the CAUSED BY line. -/
  reserved : String
  /-- Argument of the FROM line. -/
  origin : String
  /-- Argument of the WHEN line. -/
  access : String
  /-- Argument of the WHICH IS line. -/
  presence : String
deriving DecidableEq

/-- Embedding of the argument selection of `paging::exHandler(regs)`, with
`param` the value of `regs->param`. -/
def exHandler (param : Nat) : FaultReport :=
  { violation := if param &&& 0x18 = 0 then "ACCESS VIOLATION" else ""
    fetch := if param &&& 0x10 = 0 then "" else "INSTRUCTION FETCH"
    reserved := if param &&& 0x08 = 0 then "" else "RESERVED BIT SET"
    origin := if param &&& 0x04 = 0 then "KERNEL" else "USER"
    access := if param &&& 0x02 = 0 then "READ" else "WRITE"
    presence := if param &&& 0x01 = 0 then "PRESENT" else "PRIVILEGED" }

/-- The lines of the report of `paging::exHandler` that are made of the
format string and the selected strings alone: cause line, privilege-level
line, access-type line and presence line.  The heading and the address line
print values of absent headers (`except::NAME`, `outCR2()`) and are left out. -/
def FaultReport.lines (r : FaultReport) : List String :=
  [ "CAUSED BY:\t" ++ r.violation ++ r.fetch ++ r.reserved ++ "\r\n",
    "FROM:\t\t" ++ r.origin ++ " space\r\n",
    "WHEN:\t\tattempting to " ++ r.access ++ "\r\n",
    "WHICH IS:\tnot " ++ r.presence ++ "\r\n" ]

/-! ## Concrete machines for the later claims -/

/-- Machine after `paging::init()` at kernel entry, with the kernel image
ending at 0x110000. -/
def initMachine : Machine :=
  init bootMachine 0x110000

/-- Frame pool of one whole frame: `heap(0x110000, 0x1000)` on the machine at
kernel entry. -/
def oneFrameMachine : Machine :=
  heap bootMachine 0x110000 0x1000

/-- Two regions: `heap(0x110000, 0x3000)` (region A, three frames) followed by
`heap(0x200000, 0x1000)` (region B, one frame) on the machine at kernel entry. -/
def twoRegionMachine : Machine :=
  heap (heap bootMachine 0x110000 0x3000) 0x200000 0x1000

/-- Two regions of two frames each: `heap(0x110000, 0x2000)` (region A)
followed by `heap(0x200000, 0x2000)` (region B) on the machine at kernel entry. -/
def twoByTwoMachine : Machine :=
  heap (heap bootMachine 0x110000 0x2000) 0x200000 0x2000

/-! ## i386 paging (src/arch/i386/paging.cpp) -/

namespace i386

/-- State of the 32-bit machine as far as the i386 paging.cpp can observe it:
physical memory as a map from addresses to the 32-bit word (`dword_t`) stored
there, and the two control registers it writes.  The source only loads and
stores `dword_t` elements of two 4-byte aligned arrays. -/
structure Machine where
  /-- Word stored at each address. -/
  mem : Nat → Nat
  /-- Control register 0 (paging enable bit). -/
  cr0 : Nat
  /-- Control register 3 (page directory base). -/
  cr3 : Nat

/-- Range of `dword_t`. -/
def DWORD : Nat := 2 ^ 32

/-- Store of one word: `*addr = val`. -/
def Machine.write (s : Machine) (addr val : Nat) : Machine :=
  { s with mem := fun a => if a = addr then val else s.mem a }

/-- Modelled from the spec: `pagingFlags_t::CLEAR` of the absent i386
arch/paging.hpp. -/
def CLEAR : Nat := 0

/-- Modelled from the spec: `pagingFlags_t::PRESENT` of the absent i386
arch/paging.hpp, bit 0 of an x86 table entry. -/
def PRESENT : Nat := 0x1

/-- Modelled from the spec: `pagingFlags_t::WRITABLE` of the absent i386
arch/paging.hpp, bit 1 of an x86 table entry. -/
def WRITABLE : Nat := 0x2

/-- First `for` loop of `pagingSetup`: `pageDirectory[i] = CLEAR`, with `i` the
loop variable and `n` the number of iterations still to run. -/
def clearDirectory (pageDirectory : Nat) : Nat → Nat → Machine → Machine
  | 0, _, s => s
  | n + 1, i, s =>
    clearDirectory pageDirectory n (i + 1) (s.write (pageDirectory + 4 * i) CLEAR)

/-- Second `for` loop of `pagingSetup`: `pageTable[j] = (j << 12)` followed by
`pageTable[j] |= WRITABLE | PRESENT`, with `j` the loop variable and `n` the
number of iterations still to run. -/
def fillTable (pageTable : Nat) : Nat → Nat → Machine → Machine
  | 0, _, s => s
  | n + 1, j, s =>
    let s1 := s.write (pageTable + 4 * j) ((j <<< 12) % DWORD)
    let s2 := s1.write (pageTable + 4 * j) (s1.mem (pageTable + 4 * j) ||| (WRITABLE ||| PRESENT))
    fillTable pageTable n (j + 1) s2

/-- Embedding of `pagingSetupPD(pageDirAddr)`. -/
def pagingSetupPD (s : Machine) (pageDirAddr : Nat) : Machine :=
  { s with cr3 := pageDirAddr % DWORD }

/-- Embedding of `pagingEnable()`. -/
def pagingEnable (s : Machine) : Machine :=
  { s with cr0 := s.cr0 ||| (1 <<< 31) }

/-- Embedding of `pagingSetup()`.  `pageDirectory` and `pageTable` are the
addresses of the two `extern` arrays of 1024 `dword_t` each; element `i` of an
array is the word at its address plus `4 * i`.  `exHandlerInstall` (absent
arch/exceptions.hpp) only registers the fault handler and touches none of the
state modelled here. -/
def pagingSetup (s : Machine) (pageDirectory pageTable : Nat) : Machine :=
  let s1 := clearDirectory pageDirectory 1024 0 s
  let s2 := s1.write (pageDirectory + 4 * 0) (pageTable % DWORD)
  let s3 := s2.write (pageDirectory + 4 * 0)
    (s2.mem (pageDirectory + 4 * 0) ||| (WRITABLE ||| PRESENT))
  let s4 := fillTable pageTable 1024 0 s3
  let s5 := s4.write (pageDirectory + 4 * 768) (pageTable % DWORD)
  let s6 := s5.write (pageDirectory + 4 * 768)
    (s5.mem (pageDirectory + 4 * 768) ||| (WRITABLE ||| PRESENT))
  let s7 := s6.write (pageDirectory + 4 * 1023) (pageDirectory % DWORD)
  let s8 := s7.write (pageDirectory + 4 * 1023)
    (s7.mem (pageDirectory + 4 * 1023) ||| (WRITABLE ||| PRESENT))
  pagingEnable (pagingSetupPD s8 pageDirectory)

/-- The page-directory entry `pagingVirtToPhys` loads for `virtAddr`
(`pageTablePtr` in the source). -/
def directoryEntry (s : Machine) (pageDirectory virtAddr : Nat) : Nat :=
  let pdEntryIndex := (virtAddr &&& 0xFFC00000) >>> 22
  s.mem (pageDirectory + 4 * pdEntryIndex)

/-- The page-table entry `pagingVirtToPhys` loads for `virtAddr` (`pagePtr` in
the source), through the table the directory entry points to. -/
def tableEntry (s : Machine) (pageDirectory virtAddr : Nat) : Nat :=
  let ptEntryIndex := (virtAddr &&& 0x3FF000) >>> 12
  let pageTablePtr := directoryEntry s pageDirectory virtAddr
  s.mem ((pageTablePtr &&& 0xFFFFF000) + 4 * ptEntryIndex)

/-- Embedding of `pagingVirtToPhys(virtAddr)`; 0 is `nullptr`.
`pageDirectory` is the address of the `extern` array. -/
def pagingVirtToPhys (s : Machine) (pageDirectory virtAddr : Nat) : Nat :=
  let pdEntryIndex := (virtAddr &&& 0xFFC00000) >>> 22
  let ptEntryIndex := (virtAddr &&& 0x3FF000) >>> 12
  let pageTablePtr := s.mem (pageDirectory + 4 * pdEntryIndex)
  if pageTablePtr &&& PRESENT = CLEAR then 0
  else
    let pagePtr := s.mem ((pageTablePtr &&& 0xFFFFF000) + 4 * ptEntryIndex)
    if pagePtr &&& PRESENT = CLEAR then 0
    else
      let physPageAddr := pagePtr &&& 0xFFFFF000
      let physPageOffset := virtAddr &&& 0xFFF
      physPageAddr ||| physPageOffset

/-- Embedding of `pagingFaultExceptionHandler(regs)`: the arguments of its
`vmemWrite` calls in order, with `param` the value of `regs->param` and `text`
the digits `klib::kitoa` (absent) produces for the fault address. -/
def pagingFaultExceptionHandler (text : String) (param : Nat) : List String :=
  [ "CAUSED BY:\t",
    if param &&& 0x18 = 0 then "ACCESS VIOLATION" else "",
    if param &&& 0x10 = 0 then "" else "INSTRUCTION FETCH",
    if param &&& 0x08 = 0 then "" else "RESERVED BIT SET",
    "\r\nFROM:\t\t",
    if param &&& 0x04 = 0 then "KERNEL" else "USER",
    " space\r\n",
    "WHEN:\t\tattempting to ",
    if param &&& 0x02 = 0 then "READ" else "WRITE",
    "\r\nADDRESS:\t0x",
    text,
    "\r\nWHICH IS:\tNON-",
    if param &&& 0x01 = 0 then "PRESENT\r\n" else "PRIVILEGED\r\n",
    "\r\n" ]

/-- The 32-bit machine at kernel entry: memory clear, paging off. -/
def bootMachine : Machine :=
  { mem := fun _ => 0
    cr0 := 0
    cr3 := 0 }

end i386

/-! ## Interrupt descriptor table (src/include/arch/x86_64/idt.hpp) -/

/-- Embedding of `igros::x86_64::idtEntryx86_64_t`, field by field. -/
structure idtEntryx86_64_t where
  /-- Offset lower part (0..15), `word_t`. -/
  offsetLow : Nat
  /-- Selector from GDT/LDT, `word_t`. -/
  selector : Nat
  /-- Interrupt service table, `byte_t`. -/
  ist : Nat
  /-- Type attributes, `byte_t`. -/
  type : Nat
  /-- Offset middle part (16..31), `word_t`. -/
  offsetMiddle : Nat
  /-- Offset higher part (32..63), `dword_t`. -/
  offsetHigh : Nat
  /-- Must be zero, `dword_t`. -/
  reserved2 : Nat
deriving DecidableEq

/-- Embedding of `idt::setEntry(offset, selector, type)`; the `static_cast` to
`word_t` and `dword_t` reduce modulo `2 ^ 16` and `2 ^ 32`. -/
def idt.setEntry (offset selector type : Nat) : idtEntryx86_64_t :=
  { offsetLow := (offset &&& 0xFFFF) % 2 ^ 16
    selector := selector
    ist := 0x00
    type := type
    offsetMiddle := ((offset &&& 0xFFFF0000) >>> 16) % 2 ^ 16
    offsetHigh := ((offset &&& 0xFFFFFFFF00000000) >>> 32) % 2 ^ 32
    reserved2 := 0x00000000 }

/-! ## Helper lemmas -/

theorem write_mem_same (s : Machine) (a v : Nat) : (s.write a v).mem a = v := by
  simp [Machine.write]

theorem write_mem_other (s : Machine) (a b v : Nat) (h : b ≠ a) :
    (s.write a v).mem b = s.mem b := by
  simp [Machine.write, h]

theorem write_keeps_freeVar (s : Machine) (a v : Nat) : (s.write a v).freeVar = s.freeVar := rfl

theorem kalignCheck_twelve (p : Nat) : kalignCheck p 12 = true ↔ p % 4096 = 0 := by
  simp [kalignCheck]

/-- Storing into the static `mFreePages` does not disturb a free list, whose
frames all differ from the static. -/
theorem FreeList.preserved_by_head_store (s : Machine) (v : Nat) :
    ∀ (fs : List Nat) (head : Nat), FreeList s head fs → FreeList (s.write s.freeVar v) head fs := by
  intro fs
  induction fs with
  | nil => intro head h; exact h
  | cons f fs ih =>
    intro head h
    obtain ⟨h1, h2, h3, h4, h5⟩ := h
    refine ⟨h1, h2, h3, h4, ?_⟩
    rw [write_mem_other s s.freeVar f v h2]
    exact ih _ h5

/-- The head frame of a free list does not link to itself. -/
theorem FreeList.next_ne (s : Machine) (f : Nat) (fs : List Nat) (head : Nat)
    (h : FreeList s head (f :: fs)) : s.mem f ≠ f := by
  obtain ⟨_, h2, _, h4, h5⟩ := h
  cases fs with
  | nil =>
    have h6 : s.mem f = s.freeVar := h5
    rw [h6]
    exact fun e => h2 e.symm
  | cons g gs =>
    obtain ⟨h6, _⟩ := h5
    rw [h6]
    intro e
    exact h4 (by simp [e])

/-! ## Frame allocator: claims -/

/-- C3 (the code departs from the claim): on the empty allocator,
`heap(0x110000, 0x2000)` computes N = 2 whole frames, yet only the first
`allocate` call returns a frame (0x110000) and already the second one returns
null, because `heap` makes `page[numOfPages - 2]` the list head. -/
theorem heap_two_frames_single_allocation :
    heapNumOfPages 0x110000 0x2000 = 2 ∧
    bootMachine.mFreePages = bootMachine.freeVar ∧
    (allocate twoFrameMachine).1 = 0x110000 ∧
    (allocate (allocate twoFrameMachine).2).1 = 0 := by
  decide

/-- C4: on an empty free list (the head is the static `mFreePages` itself, as
after its initialiser) `allocate` returns null and leaves the machine
unchanged; on a free list `f :: fs` it returns the head frame `f`, the word
stored in `f` becomes the new head, the only store is the one to the static,
and the remaining list is `fs`. -/
theorem allocate_spec (s : Machine) :
    (FreeList s s.mFreePages [] → allocate s = (0, s)) ∧
    (∀ f fs, FreeList s s.mFreePages (f :: fs) →
      (allocate s).1 = f ∧
      (allocate s).2.mFreePages = s.mem f ∧
      (allocate s).2 = s.write s.freeVar (s.mem f) ∧
      FreeList (allocate s).2 (allocate s).2.mFreePages fs) := by
  constructor
  · intro h
    have h1 : s.mFreePages = s.freeVar := h
    have h2 : s.mem s.mFreePages = s.mFreePages := by
      rw [h1]
      exact h1
    simp [allocate, h2]
  · intro f fs h
    have hne := FreeList.next_ne s f fs _ h
    obtain ⟨h1, h2, h3, h4, h5⟩ := h
    have hal : allocate s = (f, s.write s.freeVar (s.mem f)) := by
      simp [allocate, h1, hne]
    rw [hal]
    refine ⟨rfl, ?_, rfl, ?_⟩
    · exact write_mem_same s s.freeVar (s.mem f)
    · show FreeList (s.write s.freeVar (s.mem f)) ((s.write s.freeVar (s.mem f)).mem s.freeVar) fs
      rw [write_mem_same]
      exact FreeList.preserved_by_head_store s _ fs _ h5

/-- Witness of C4: the allocator at kernel entry is empty and `allocate`
gives null without changing it; with three frames seeded the list is
0x111000 :: 0x110000 and `allocate` pops 0x111000. -/
theorem allocate_spec_witness :
    allocate bootMachine = (0, bootMachine) ∧
    (allocate threeFrameMachine).1 = 0x111000 ∧
    (allocate threeFrameMachine).2.mFreePages = 0x110000 ∧
    FreeList (allocate threeFrameMachine).2 (allocate threeFrameMachine).2.mFreePages [0x110000] :=
  ⟨(allocate_spec bootMachine).1 (by decide),
   ((allocate_spec threeFrameMachine).2 0x111000 [0x110000] (by decide)).1,
   by
    have h := ((allocate_spec threeFrameMachine).2 0x111000 [0x110000] (by decide)).2.1
    rw [h]
    decide,
   ((allocate_spec threeFrameMachine).2 0x111000 [0x110000] (by decide)).2.2.2⟩

/-- C5: on a non-empty free list `f :: fs`, `allocate` followed by `deallocate`
of the returned frame gives back the very same machine: the head is `f` again
and the frames reachable from it are again `f :: fs`. -/
theorem allocate_deallocate_restores (s : Machine) (f : Nat) (fs : List Nat)
    (h : FreeList s s.mFreePages (f :: fs)) :
    deallocate (allocate s).2 (allocate s).1 = s ∧
    (deallocate (allocate s).2 (allocate s).1).mFreePages = s.mFreePages ∧
    FreeList (deallocate (allocate s).2 (allocate s).1)
      (deallocate (allocate s).2 (allocate s).1).mFreePages (f :: fs) := by
  have key : deallocate (allocate s).2 (allocate s).1 = s := by
    have hne := FreeList.next_ne s f fs _ h
    obtain ⟨h1, h2, h3, _, _⟩ := h
    have h1m : s.mem s.freeVar = f := h1
    have hal : allocate s = (f, s.write s.freeVar (s.mem f)) := by
      simp [allocate, h1, hne]
    have hk : kalignCheck f 12 = true := (kalignCheck_twelve f).2 h3
    rw [hal]
    cases s with
    | mk mem freeVar cr0 cr3 cr4 =>
      simp only [deallocate, hk, Machine.write, Machine.mFreePages]
      simp only [not_true_eq_false, if_false, if_true]
      congr 1
      funext a
      by_cases ha : a = freeVar
      · subst ha
        simpa using h1m.symm
      · by_cases hb : a = f
        · subst hb
          simp [ha]
        · simp [ha, hb]
  rw [key]
  exact ⟨rfl, rfl, h⟩

/-- Witness of C5 on the pool of three frames, whose free list is
0x111000 :: 0x110000. -/
theorem allocate_deallocate_restores_witness :
    deallocate (allocate threeFrameMachine).2 (allocate threeFrameMachine).1 = threeFrameMachine :=
  (allocate_deallocate_restores threeFrameMachine 0x111000 [0x110000] (by decide)).1

/-- C6: `deallocate` of an address that is not a multiple of 4096 returns the
machine unchanged, so the head, the list and all memory stay as they were. -/
theorem deallocate_misaligned_noop (s : Machine) (page : Nat) (h : page % 4096 ≠ 0) :
    deallocate s page = s ∧
    (deallocate s page).mFreePages = s.mFreePages ∧
    (∀ fs, FreeList (deallocate s page) (deallocate s page).mFreePages fs ↔
      FreeList s s.mFreePages fs) := by
  have hk : kalignCheck page 12 = false := by
    simp [kalignCheck, h]
  have key : deallocate s page = s := by
    simp [deallocate, hk]
  rw [key]
  exact ⟨rfl, rfl, fun _ => Iff.rfl⟩

/-- Witness of C6: address 0x110008 on the pool of three frames. -/
theorem deallocate_misaligned_noop_witness :
    deallocate threeFrameMachine 0x110008 = threeFrameMachine :=
  (deallocate_misaligned_noop threeFrameMachine 0x110008 (by decide)).1

/-- A 4 KiB-aligned 64-bit start address with fewer than 4096 bytes behind it
holds no whole frame. -/
theorem heapNumOfPages_aligned_small (phys size : Nat) (hp : phys < 2 ^ 64)
    (ha : phys % 4096 = 0) (hs : size < 4096) : heapNumOfPages phys size = 0 := by
  have h1 : kalignUp phys 12 = phys := by
    simp only [kalignUp, WORD]
    norm_num
    omega
  simp only [heapNumOfPages, h1, WORD, Nat.shiftRight_eq_div_pow]
  norm_num
  omega

/-- C7: whenever the frame count computed by `heap` is zero the call returns
the machine unchanged (head, memory and registers); this covers start 0x100000
with size 0 and every 4 KiB-aligned start with a size below 4096. -/
theorem heap_zero_pages_noop (s : Machine) :
    (∀ phys size, heapNumOfPages phys size = 0 → heap s phys size = s) ∧
    heap s 0x100000 0 = s ∧
    (∀ phys size, phys < 2 ^ 64 → phys % 4096 = 0 → size < 4096 → heap s phys size = s) := by
  have key : ∀ phys size, heapNumOfPages phys size = 0 → heap s phys size = s := by
    intro phys size h
    simp [heap, h]
  exact ⟨key, key _ _ (by decide),
    fun phys size hp ha hs => key _ _ (heapNumOfPages_aligned_small phys size hp ha hs)⟩

/-- Witness of C7: `heap(0x100000, 0)` and `heap(0x200000, 4095)` on the pool
of three frames. -/
theorem heap_zero_pages_noop_witness :
    heapNumOfPages 0x100000 0 = 0 ∧
    heap threeFrameMachine 0x100000 0 = threeFrameMachine ∧
    heap threeFrameMachine 0x200000 4095 = threeFrameMachine :=
  ⟨by decide,
   (heap_zero_pages_noop threeFrameMachine).1 0x100000 0 (by decide),
   (heap_zero_pages_noop threeFrameMachine).2.2 0x200000 4095 (by decide) (by decide) (by decide)⟩

/-! ## Hierarchy manager and translator: claims -/

/-- C8: when the physical frame or the virtual address is not a multiple of
4096, each of `mapPage`, `mapPML4`, `mapDirectoryPointer` and `mapDirectory`
(explicit-table variants) returns the machine unchanged: no table entry, no
other memory and no allocator state differs; the `mapPage` overload on the
active table leaves all memory, hence every table and the free list, as it was. -/
theorem map_misaligned_noop (s : Machine) (pml4 phys virt flags : Nat)
    (h : phys % 4096 ≠ 0 ∨ virt % 4096 ≠ 0) :
    mapPage s pml4 phys virt flags = s ∧
    mapPML4 s pml4 phys virt flags = s ∧
    mapDirectoryPointer s pml4 phys virt flags = s ∧
    mapDirectory s pml4 phys virt flags = s ∧
    (mapPageActive s phys virt flags).mem = s.mem ∧
    (mapPageActive s phys virt flags).mFreePages = s.mFreePages := by
  have hk : ¬ kalignCheck phys 12 = true ∨ ¬ kalignCheck virt 12 = true := by
    rcases h with h | h
    · exact Or.inl (fun e => h ((kalignCheck_twelve phys).1 e))
    · exact Or.inr (fun e => h ((kalignCheck_twelve virt).1 e))
  have hp : ∀ t, mapPage s t phys virt flags = s := by
    intro t
    unfold mapPage
    rw [if_pos hk]
  have ha : (mapPageActive s phys virt flags).mem = s.mem := by
    simp only [mapPageActive, hp, enable, setDirectory]
  have hf : (mapPageActive s phys virt flags).mFreePages = s.mFreePages := by
    show (mapPageActive s phys virt flags).mem (mapPageActive s phys virt flags).freeVar = _
    rw [ha]
    simp only [mapPageActive, hp, enable, setDirectory]
    rfl
  refine ⟨hp pml4, ?_, ?_, ?_, ha, hf⟩
  · unfold mapPML4 PAGE_SHIFT
    rw [if_pos hk]
  · unfold mapDirectoryPointer PAGE_SHIFT
    rw [if_pos hk]
  · unfold mapDirectory
    rw [if_pos hk]

/-- Witness of C8: frame 0x3008 (misaligned) for virtual address 0x500000 on
the machine with a fresh active top table. -/
theorem map_misaligned_noop_witness :
    mapPage freshMachine freshRoot 0x3008 0x500000 (WRITABLE ||| PRESENT) = freshMachine ∧
    mapDirectory freshMachine freshRoot 0x3008 0x500000 (WRITABLE ||| PRESENT) = freshMachine :=
  ⟨(map_misaligned_noop freshMachine freshRoot 0x3008 0x500000 (WRITABLE ||| PRESENT)
      (Or.inl (by decide))).1,
   (map_misaligned_noop freshMachine freshRoot 0x3008 0x500000 (WRITABLE ||| PRESENT)
      (Or.inl (by decide))).2.2.2.1⟩

/-- C1 (the code departs from the claim): with the pool seeded and a fresh top
table at 0x14E000 active, mapping frame 0x3000 at virtual 0x500000 with
WRITABLE|PRESENT makes `toPhys(0x500123)` return null instead of 0x3123:
`mapPage` leaves PRESENT in the top-table entry and `toPhys` returns null
exactly for entries that carry the flag. -/
theorem toPhys_after_mapPage_null :
    freshRoot = 0x14E000 ∧ freshMachine.cr3 = freshRoot ∧
    (mapPage freshMachine freshRoot 0x3000 0x500000 (WRITABLE ||| PRESENT)).mem freshRoot = 0x3 ∧
    toPhys (mapPage freshMachine freshRoot 0x3000 0x500000 (WRITABLE ||| PRESENT)) 0x500123 = 0 := by
  decide

/-- C2 (the code departs from the claim): on a fresh all-zero active top table
with no mapping installed `toPhys(0x500123)` returns 0x123 rather than null,
and after the single call `mapPage(root, 0x3000, 0x500000, WRITABLE|PRESENT)`
the never-mapped address 0x8040200123 translates to 0x123 rather than null. -/
theorem toPhys_never_mapped_not_null :
    (∀ i, i < 512 → freshMachine.mem (freshRoot + 8 * i) = 0) ∧
    toPhys freshMachine 0x500123 = 0x123 ∧
    toPhys (mapPage freshMachine freshRoot 0x3000 0x500000 (WRITABLE ||| PRESENT)) 0x8040200123
      = 0x123 := by
  refine ⟨?_, by decide, by decide⟩
  intro i hi
  have h1 : freshRoot = 0x14E000 := by decide
  have h2 : freshMachine.mem = fun a =>
      if 0x14E000 ≤ a ∧ a < 0x14E000 + 4 * (SIZEOF_TABLE >>> 2) then 0
      else (allocate pooledMachine).2.mem a := by
    have h3 : (allocate pooledMachine).1 = 0x14E000 := by decide
    simp only [freshMachine, setDirectory, makePML4, kmemset, CLEAR, h3]
  rw [h2, h1]
  have h4 : SIZEOF_TABLE >>> 2 = 1024 := by decide
  simp only [h4]
  rw [if_pos (by omega)]

/-- C9 (the code departs from the claim): on the fresh active top table,
`mapPage(root, 0x3000, 0x40200000, CLEAR)` called once leaves
`toPhys(0x40200123)` at 0x123, called twice it makes it 0x3123: the second
call changes the translation. -/
theorem mapPage_twice_changes_translation :
    toPhys (mapPage freshMachine freshRoot 0x3000 0x40200000 CLEAR) 0x40200123 = 0x123 ∧
    toPhys (mapPage (mapPage freshMachine freshRoot 0x3000 0x40200000 CLEAR)
      freshRoot 0x3000 0x40200000 CLEAR) 0x40200123 = 0x3123 := by
  decide

/-- C10 (the code departs from the claim): on the fresh active top table,
mapping virtual 0x500000 to frame 0x3000 and then to frame 0x4000, both with
WRITABLE|PRESENT, makes `toPhys(0x500000)` return null instead of 0x4000. -/
theorem remap_then_toPhys_null :
    toPhys (mapPage (mapPage freshMachine freshRoot 0x3000 0x500000 (WRITABLE ||| PRESENT))
      freshRoot 0x4000 0x500000 (WRITABLE ||| PRESENT)) 0x500000 = 0 := by
  decide

/-! ## Bit-level helper lemmas -/

theorem testBit_flags_mask (i : Nat) : Nat.testBit 0xFFF i = decide (i < 12) := by
  have h : (0xFFF : Nat) = 2 ^ 12 - 1 := by norm_num
  rw [h, Nat.testBit_two_pow_sub_one]

theorem testBit_huge (i : Nat) : Nat.testBit 0x80 i = decide (7 = i) := by
  have h : (0x80 : Nat) = 2 ^ 7 := by norm_num
  rw [h, Nat.testBit_two_pow]

theorem testBit_present (i : Nat) : Nat.testBit 1 i = decide (0 = i) := by
  have h : (1 : Nat) = 2 ^ 0 := by norm_num
  rw [h, Nat.testBit_two_pow]

theorem testBit_addr_mask (i : Nat) :
    Nat.testBit 0xFFFFFFFFFFFFF000 i = decide (12 ≤ i ∧ i < 64) := by
  have h : (0xFFFFFFFFFFFFF000 : Nat) = (2 ^ 52 - 1) <<< 12 := by decide
  rw [h, Nat.testBit_shiftLeft, Nat.testBit_two_pow_sub_one]
  by_cases h1 : 12 ≤ i
  · by_cases h2 : i < 64
    · have : i - 12 < 52 := by omega
      simp [h1, h2, this]
    · have : ¬ i - 12 < 52 := by omega
      simp [h1, h2, this]
  · simp [h1]

theorem testBit_of_aligned (p i : Nat) (hp : p % 4096 = 0) (hi : i < 12) :
    Nat.testBit p i = false := by
  have h := Nat.testBit_mod_two_pow p 12 i
  have h2 : p % 2 ^ 12 = 0 := by norm_num; exact hp
  rw [h2] at h
  simp [hi] at h
  exact h

theorem testBit_of_word (p i : Nat) (hp : p < 2 ^ 64) (hi : 64 ≤ i) :
    Nat.testBit p i = false := by
  apply Nat.testBit_lt_two_pow
  calc p < 2 ^ 64 := hp
    _ ≤ 2 ^ i := Nat.pow_le_pow_right (by norm_num) hi

/-- Address bits of the entry `mapPage` stores: the frame itself. -/
theorem leaf_entry_address (p f : Nat) (hp : p % 4096 = 0) (h64 : p < 2 ^ 64) :
    (p ||| 0x80 ||| (f &&& 0xFFF)) &&& 0xFFFFFFFFFFFFF000 = p := by
  apply Nat.eq_of_testBit_eq
  intro i
  rw [Nat.testBit_and, Nat.testBit_or, Nat.testBit_or, Nat.testBit_and, testBit_addr_mask,
    testBit_huge, testBit_flags_mask]
  by_cases h1 : i < 12
  · have := testBit_of_aligned p i hp h1
    simp [this]
    omega
  · by_cases h2 : i < 64
    · have h3 : ¬ 7 = i := by omega
      have h4 : 12 ≤ i := by omega
      simp [h1, h2, h3, h4]
    · have := testBit_of_word p i h64 (by omega)
      simp [this, h2]

/-- Flag bits of the entry `mapPage` stores: the caller's flags and HUGE. -/
theorem leaf_entry_flags (p f : Nat) (hp : p % 4096 = 0) :
    (p ||| 0x80 ||| (f &&& 0xFFF)) &&& 0xFFF = 0x80 ||| (f &&& 0xFFF) := by
  apply Nat.eq_of_testBit_eq
  intro i
  rw [Nat.testBit_and, Nat.testBit_or, Nat.testBit_or, Nat.testBit_or, Nat.testBit_and,
    testBit_huge, testBit_flags_mask]
  by_cases h1 : i < 12
  · have := testBit_of_aligned p i hp h1
    simp [this, h1]
  · have h3 : ¬ 7 = i := by omega
    simp [h1, h3]

/-- Bit 0 of the entry `mapPage` stores is bit 0 of the caller's flags. -/
theorem leaf_entry_present (p f : Nat) (hp : p % 4096 = 0) :
    (p ||| 0x80 ||| (f &&& 0xFFF)) &&& 1 = f &&& 1 := by
  apply Nat.eq_of_testBit_eq
  intro i
  rw [Nat.testBit_and, Nat.testBit_or, Nat.testBit_or, Nat.testBit_and, Nat.testBit_and,
    testBit_huge, testBit_flags_mask, testBit_present]
  by_cases h1 : 0 = i
  · subst h1
    have := testBit_of_aligned p 0 hp (by norm_num)
    simp [this]
  · simp [h1]

/-- Bit 7 of the entry `mapPage` stores is always set. -/
theorem leaf_entry_huge (p f : Nat) :
    (p ||| 0x80 ||| (f &&& 0xFFF)) &&& 0x80 = 0x80 := by
  apply Nat.eq_of_testBit_eq
  intro i
  rw [Nat.testBit_and, Nat.testBit_or, Nat.testBit_or, testBit_huge]
  by_cases h1 : 7 = i
  · simp [h1]
  · simp [h1]

/-- For aligned arguments `mapPage` is its walk, its final-level store and the
store that re-tags the directory entry, in this order. -/
theorem mapPage_eq_steps (s : Machine) (pml4 p v flags : Nat)
    (hp : p % 4096 = 0) (hv : v % 4096 = 0) :
    mapPage s pml4 p v flags =
      (((mapPageWalk s pml4 v flags).1.write (mapPageLeaf s pml4 p v flags).1
          (mapPageLeaf s pml4 p v flags).2).write (mapPageWalk s pml4 v flags).2
        (((((mapPageWalk s pml4 v flags).1.write (mapPageLeaf s pml4 p v flags).1
          (mapPageLeaf s pml4 p v flags).2).mem (mapPageWalk s pml4 v flags).2) &&& 0x7FFFFFFF)
          ||| (flags &&& FLAGS_MASK))) := by
  have hk : ¬ (¬ kalignCheck p 12 = true ∨ ¬ kalignCheck v 12 = true) := by
    rw [(kalignCheck_twelve p).2 hp, (kalignCheck_twelve v).2 hv]
    simp
  unfold mapPage
  rw [if_neg hk]
  rfl

/-! ## Translator, table factory and boot-time setup: claims -/

/-- C11: `toPhys` is read-only: run statement by statement on any machine and
any virtual address, the machine after the call is the machine before it, so
the free-list head, every table entry and all other memory are unchanged, and
the pointer returned is the one the function `toPhys` computes. -/
theorem toPhys_read_only (s : Machine) (virt : Nat) :
    (toPhysRun s virt).2 = s ∧
    (toPhysRun s virt).1 = toPhys s virt ∧
    (toPhysRun s virt).2.mFreePages = s.mFreePages ∧
    (∀ a, (toPhysRun s virt).2.mem a = s.mem a) ∧
    (allocate (toPhysRun s virt).2 = allocate s) := by
  have key : toPhysRun s virt = (toPhys s virt, s) := by
    unfold toPhysRun toPhys load outCR3
    dsimp only
    split_ifs <;> rfl
  rw [key]
  exact ⟨rfl, rfl, rfl, fun _ => rfl, rfl⟩

/-- C12: when the allocation succeeds (a non-null frame is returned), each of
the four table-factory functions returns the former list head, and every one of
the 512 entries of the returned frame is zero, hence not PRESENT. -/
theorem make_table_zeroed (s : Machine) (i : Nat) (hs : (allocate s).1 ≠ 0) (hi : i < 512) :
    ((makePML4 s).1 = s.mFreePages ∧
      (makePML4 s).2.mem ((makePML4 s).1 + 8 * i) = 0 ∧
      (makePML4 s).2.mem ((makePML4 s).1 + 8 * i) &&& PRESENT = 0) ∧
    ((makeDirectoryPointer s).1 = s.mFreePages ∧
      (makeDirectoryPointer s).2.mem ((makeDirectoryPointer s).1 + 8 * i) = 0 ∧
      (makeDirectoryPointer s).2.mem ((makeDirectoryPointer s).1 + 8 * i) &&& PRESENT = 0) ∧
    ((makeDirectory s).1 = s.mFreePages ∧
      (makeDirectory s).2.mem ((makeDirectory s).1 + 8 * i) = 0 ∧
      (makeDirectory s).2.mem ((makeDirectory s).1 + 8 * i) &&& PRESENT = 0) ∧
    ((makeTable s).1 = s.mFreePages ∧
      (makeTable s).2.mem ((makeTable s).1 + 8 * i) = 0 ∧
      (makeTable s).2.mem ((makeTable s).1 + 8 * i) &&& PRESENT = 0) := by
  have hal : (allocate s).1 = s.mFreePages := by
    unfold allocate at hs ⊢
    split_ifs at hs ⊢ with h
    · rfl
    · exact absurd rfl hs
  have hz : ∀ f, (kmemset (allocate s).2 f (SIZEOF_TABLE >>> 2) CLEAR).mem (f + 8 * i) = 0 := by
    intro f
    have h4 : SIZEOF_TABLE >>> 2 = 1024 := by decide
    simp only [kmemset, h4, CLEAR]
    rw [if_pos (by omega)]
  have hall : ∀ f, (kmemset (allocate s).2 f (SIZEOF_TABLE >>> 2) CLEAR).mem (f + 8 * i) = 0 ∧
      (kmemset (allocate s).2 f (SIZEOF_TABLE >>> 2) CLEAR).mem (f + 8 * i) &&& PRESENT = 0 := by
    intro f
    rw [hz f]
    exact ⟨rfl, by decide⟩
  exact ⟨⟨hal, hall _⟩, ⟨hal, hall _⟩, ⟨hal, hall _⟩, ⟨hal, hall _⟩⟩

/-- Witness of C12: on the pool of three frames the head frame 0x111000 holds
its link 0x110000 in entry 0; after `makePML4` entry 0 of the returned frame
is zero. -/
theorem make_table_zeroed_witness :
    threeFrameMachine.mem 0x111000 = 0x110000 ∧
    (makePML4 threeFrameMachine).1 = 0x111000 ∧
    (makePML4 threeFrameMachine).2.mem ((makePML4 threeFrameMachine).1 + 8 * 0) = 0 :=
  ⟨by decide,
   by
    rw [(make_table_zeroed threeFrameMachine 0 (by decide) (by decide)).1.1]
    decide,
   (make_table_zeroed threeFrameMachine 0 (by decide) (by decide)).1.2.1⟩

/-- C14 (the code departs from the claim): after `paging::init` at kernel
entry (kernel image ending at 0x110000) the top table at 0x14E000 is active,
and `toPhys` returns null for 0x1000, for 0x200000 and for the high-half
mirror 0xFFFFFFFF80001000 instead of 0x1000, 0x200000 and 0x1000. -/
theorem init_identity_map_untranslated :
    initMachine.cr3 = 0x14E000 ∧
    toPhys initMachine 0x1000 = 0 ∧
    toPhys initMachine 0x200000 = 0 ∧
    toPhys initMachine 0xFFFFFFFF80001000 = 0 := by
  decide

/-- C15 as stated fails: for the cause bitmask 0x06 the report of `exHandler`
does not name "KERNEL" as the privilege level, its FROM line is the USER one,
and its presence line reads "not PRESENT". -/
theorem fault_report_six_not_kernel :
    ¬ ((exHandler 0x06).access = "WRITE" ∧ (exHandler 0x06).origin = "KERNEL") ∧
    "FROM:\t\tKERNEL space\r\n" ∉ (exHandler 0x06).lines ∧
    "WHICH IS:\tnot PRESENT\r\n" ∈ (exHandler 0x06).lines := by
  decide

/-- C15 as amended: for the cause bitmask 0x06 the report of `exHandler`
states access type "WRITE", privilege level "USER" and the presence line
"WHICH IS: not PRESENT" (bit 0 clear: a not-present fault). -/
theorem fault_report_six :
    (exHandler 0x06).access = "WRITE" ∧
    (exHandler 0x06).origin = "USER" ∧
    (exHandler 0x06).presence = "PRESENT" ∧
    (exHandler 0x06).lines =
      [ "CAUSED BY:\tACCESS VIOLATION\r\n",
        "FROM:\t\tUSER space\r\n",
        "WHEN:\t\tattempting to WRITE\r\n",
        "WHICH IS:\tnot PRESENT\r\n" ] := by
  decide

/-- C16 (the code departs from the claim): after `heap` on region A
(0x110000, three frames) and then on region B (0x200000, one frame) the first
`allocate` returns 0x1FF000, a frame of neither region, and the second already
returns null, so no frame of B or A is handed out; with two frames in each
region only 0x200000 and 0x110000 are handed out before null. -/
theorem two_regions_frames_lost :
    heapNumOfPages 0x110000 0x3000 = 3 ∧ heapNumOfPages 0x200000 0x1000 = 1 ∧
    (allocate twoRegionMachine).1 = 0x1FF000 ∧
    (allocate (allocate twoRegionMachine).2).1 = 0 ∧
    (allocate twoByTwoMachine).1 = 0x200000 ∧
    (allocate (allocate twoByTwoMachine).2).1 = 0x110000 ∧
    (allocate (allocate (allocate twoByTwoMachine).2).2).1 = 0 := by
  decide

/-- C17 (the code departs from the claim): after `heap(0x110000, 0x1000)` on
the empty allocator, a region of exactly one whole frame, `allocate` returns
0x10F000, which lies below the start of the region. -/
theorem single_frame_region_allocates_outside :
    heapNumOfPages 0x110000 0x1000 = 1 ∧
    bootMachine.mFreePages = bootMachine.freeVar ∧
    (allocate oneFrameMachine).1 = 0x10F000 ∧
    ¬ (0x110000 ≤ (allocate oneFrameMachine).1) := by
  decide

/-! ## Hierarchy manager: entries, granularity and table creation -/

/-- C18 as stated fails: on the fresh active top table, `mapPage` of frame
0x3000 at virtual 0x500000 with the flags WRITABLE (no PRESENT) stores the
final-level entry 0x3082 at address 0x10, and PRESENT is not set in it. -/
theorem leaf_entry_without_present :
    mapPageLeaf freshMachine freshRoot 0x3000 0x500000 WRITABLE = (0x10, 0x3082) ∧
    (mapPage freshMachine freshRoot 0x3000 0x500000 WRITABLE).mem 0x10 = 0x3082 ∧
    0x3082 &&& PRESENT ≠ PRESENT := by
  decide

/-- C18 as amended: for every aligned 64-bit frame `p`, aligned virtual
address `v` and every flags value, on every run of `mapPage` that touches
aligned words only and whose table allocations succeed, the final-level entry
`dir->tables[dirID]` found in memory when `mapPage` returns is
`p | HUGE | (flags & FLAGS_MASK)`: its address bits equal `p`, its flag bits
are the caller's flag bits together with HUGE, and PRESENT is set in it exactly
when the caller's flags contain PRESENT.  The entry is required not to be the
word that holds the directory entry itself, which `mapPage` re-tags last. -/
theorem mapPage_leaf_entry (s : Machine) (pml4 p v flags : Nat)
    (hp : p % 4096 = 0) (hv : v % 4096 = 0) (h64 : p < 2 ^ 64)
    (_hex : mapPageExact s pml4 v flags)
    (hne : (mapPageLeaf s pml4 p v flags).1 ≠ (mapPageWalk s pml4 v flags).2) :
    (mapPage s pml4 p v flags).mem (mapPageLeaf s pml4 p v flags).1 =
      p ||| HUGE ||| (flags &&& FLAGS_MASK) ∧
    (mapPage s pml4 p v flags).mem (mapPageLeaf s pml4 p v flags).1 &&& PHYS_ADDR_MASK = p ∧
    (mapPage s pml4 p v flags).mem (mapPageLeaf s pml4 p v flags).1 &&& FLAGS_MASK =
      HUGE ||| (flags &&& FLAGS_MASK) ∧
    (mapPage s pml4 p v flags).mem (mapPageLeaf s pml4 p v flags).1 &&& HUGE = HUGE ∧
    ((mapPage s pml4 p v flags).mem (mapPageLeaf s pml4 p v flags).1 &&& PRESENT = PRESENT ↔
      flags &&& PRESENT = PRESENT) := by
  have hmem : (mapPage s pml4 p v flags).mem (mapPageLeaf s pml4 p v flags).1 =
      p ||| 0x80 ||| (flags &&& 0xFFF) := by
    rw [mapPage_eq_steps s pml4 p v flags hp hv]
    rw [write_mem_other _ _ _ _ hne, write_mem_same]
    rfl
  rw [hmem]
  refine ⟨rfl, ?_, ?_, ?_, ?_⟩
  · exact leaf_entry_address p flags hp h64
  · exact leaf_entry_flags p flags hp
  · exact leaf_entry_huge p flags
  · show (p ||| 0x80 ||| (flags &&& 0xFFF)) &&& 1 = 1 ↔ flags &&& 1 = 1
    rw [leaf_entry_present p flags hp]

/-- Witness of C18 as amended.  First run: frame 0x3000 at virtual 0x500000
with the flags WRITABLE on the fresh active top table; it touches the aligned
words at 0x14E000, 0x0 and 0x10, allocates nothing, and the entry found at 0x10
is 0x3082.  Second run: after a first mapping with WRITABLE|PRESENT, frame
0x4000 at the same address; it takes the aligned frame 0x14D000 from the pool
for the top-table entry and the entry found at 0x10 is 0x4083. -/
theorem mapPage_leaf_entry_witness :
    mapPageExact freshMachine freshRoot 0x500000 WRITABLE ∧
    (mapPageLeaf freshMachine freshRoot 0x3000 0x500000 WRITABLE).1 = 0x10 ∧
    (mapPage freshMachine freshRoot 0x3000 0x500000 WRITABLE).mem
        (mapPageLeaf freshMachine freshRoot 0x3000 0x500000 WRITABLE).1 =
      0x3000 ||| HUGE ||| (WRITABLE &&& FLAGS_MASK) ∧
    (mapPage freshMachine freshRoot 0x3000 0x500000 WRITABLE).mem
        (mapPageLeaf freshMachine freshRoot 0x3000 0x500000 WRITABLE).1 &&& PHYS_ADDR_MASK =
      0x3000 ∧
    mapPageExact (mapPage freshMachine freshRoot 0x3000 0x500000 (WRITABLE ||| PRESENT))
      freshRoot 0x500000 (WRITABLE ||| PRESENT) ∧
    (mapPage (mapPage freshMachine freshRoot 0x3000 0x500000 (WRITABLE ||| PRESENT))
        freshRoot 0x4000 0x500000 (WRITABLE ||| PRESENT)).mem
        (mapPageLeaf (mapPage freshMachine freshRoot 0x3000 0x500000 (WRITABLE ||| PRESENT))
          freshRoot 0x4000 0x500000 (WRITABLE ||| PRESENT)).1 =
      0x4000 ||| HUGE ||| ((WRITABLE ||| PRESENT) &&& FLAGS_MASK) :=
  ⟨by unfold mapPageExact allocateExact; decide,
   by decide,
   (mapPage_leaf_entry freshMachine freshRoot 0x3000 0x500000 WRITABLE
      (by decide) (by decide) (by decide) (by unfold mapPageExact allocateExact; decide)
      (by decide)).1,
   (mapPage_leaf_entry freshMachine freshRoot 0x3000 0x500000 WRITABLE
      (by decide) (by decide) (by decide) (by unfold mapPageExact allocateExact; decide)
      (by decide)).2.1,
   by unfold mapPageExact allocateExact; decide,
   (mapPage_leaf_entry (mapPage freshMachine freshRoot 0x3000 0x500000 (WRITABLE ||| PRESENT))
      freshRoot 0x4000 0x500000 (WRITABLE ||| PRESENT)
      (by decide) (by decide) (by decide) (by unfold mapPageExact allocateExact; decide)
      (by decide)).1⟩

/-- C19 as stated fails: 0x400000 and 0x401000 differ only in bits 12-20;
after `mapPage` of frame 0x3000 at 0x400000 and then of frame 0x4000 at
0x401000, both with WRITABLE|PRESENT, `toPhys(0x400000)` is not 0x3000, and the
second call did exactly what a re-mapping of 0x400000 to 0x4000 does. -/
theorem mappings_in_one_region_not_independent :
    toPhys (mapPage (mapPage freshMachine freshRoot 0x3000 0x400000 (WRITABLE ||| PRESENT))
      freshRoot 0x4000 0x401000 (WRITABLE ||| PRESENT)) 0x400000 ≠ 0x3000 ||| (0x400000 &&& 0xFFF) ∧
    (mapPageLeaf freshMachine freshRoot 0x3000 0x400000 (WRITABLE ||| PRESENT)).1 =
      (mapPageLeaf (mapPage freshMachine freshRoot 0x3000 0x400000 (WRITABLE ||| PRESENT))
        freshRoot 0x4000 0x401000 (WRITABLE ||| PRESENT)).1 := by
  decide

/-- C19 as amended: `mapPage` works at 2 MiB granularity, it selects the words
it touches from bits 21 and up of the virtual address only.  For 4 KiB-aligned
`a` and `b` that agree in all bits from bit 21 up (they differ at most in bits
12-20), `mapPage` for `(pb, b)` after `mapPage` for `(pa, a)` gives the very
machine that `mapPage` for `(pb, a)` gives: it replaces the mapping of `a`. -/
theorem mapPage_granularity (s : Machine) (root pa pb a b flags : Nat)
    (ha : a % 4096 = 0) (hb : b % 4096 = 0) (hab : a >>> 21 = b >>> 21) :
    mapPage (mapPage s root pa a flags) root pb b flags =
      mapPage (mapPage s root pa a flags) root pb a flags ∧
    (∀ t p, mapPage t root p b flags = mapPage t root p a flags) := by
  have h39 : a >>> 39 = b >>> 39 := by
    rw [show (39 : Nat) = 21 + 18 from rfl, Nat.shiftRight_add, Nat.shiftRight_add, hab]
  have h30 : a >>> 30 = b >>> 30 := by
    rw [show (30 : Nat) = 21 + 9 from rfl, Nat.shiftRight_add, Nat.shiftRight_add, hab]
  have ka : kalignCheck a 12 = true := (kalignCheck_twelve a).2 ha
  have kb : kalignCheck b 12 = true := (kalignCheck_twelve b).2 hb
  have key : ∀ t p, mapPage t root p b flags = mapPage t root p a flags := by
    intro t p
    unfold mapPage
    rw [ka, kb, h39, h30, hab]
  exact ⟨key _ _, key⟩

/-- Witness of C19 as amended: 0x400000 and 0x401000 on the fresh active top
table. -/
theorem mapPage_granularity_witness :
    mapPage (mapPage freshMachine freshRoot 0x3000 0x400000 (WRITABLE ||| PRESENT))
        freshRoot 0x4000 0x401000 (WRITABLE ||| PRESENT) =
      mapPage (mapPage freshMachine freshRoot 0x3000 0x400000 (WRITABLE ||| PRESENT))
        freshRoot 0x4000 0x400000 (WRITABLE ||| PRESENT) :=
  (mapPage_granularity freshMachine freshRoot 0x3000 0x4000 0x400000 0x401000
    (WRITABLE ||| PRESENT) (by decide) (by decide) (by decide)).1

/-- C20 (the code departs from the claim): on the fresh active top table the
entry for 0x500000 is zero, not PRESENT, yet the first `mapPage` takes no frame
from the allocator and leaves only the flags 0x3 in the entry, no table
address; the second `mapPage` through the now PRESENT entry takes frame
0x14D000 from the allocator and makes the entry reference it. -/
theorem mapPage_allocates_for_present_entries_only :
    freshMachine.mem freshRoot = 0 ∧
    freshMachine.mFreePages = 0x14D000 ∧
    (mapPage freshMachine freshRoot 0x3000 0x500000 (WRITABLE ||| PRESENT)).mFreePages
      = 0x14D000 ∧
    (mapPage freshMachine freshRoot 0x3000 0x500000 (WRITABLE ||| PRESENT)).mem freshRoot = 0x3 ∧
    (mapPage (mapPage freshMachine freshRoot 0x3000 0x500000 (WRITABLE ||| PRESENT))
      freshRoot 0x3000 0x500000 (WRITABLE ||| PRESENT)).mFreePages = 0x14C000 ∧
    (mapPage (mapPage freshMachine freshRoot 0x3000 0x500000 (WRITABLE ||| PRESENT))
      freshRoot 0x3000 0x500000 (WRITABLE ||| PRESENT)).mem freshRoot = 0x14D003 := by
  decide

/-! ## Further helper lemmas -/

/-- Masking a field of `k` bits at position `n` and shifting it down gives the
field: bits `n` to `n + k - 1` of the word. -/
theorem and_shifted_mask (v n k : Nat) :
    (v &&& ((2 ^ k - 1) <<< n)) >>> n = (v >>> n) % 2 ^ k := by
  apply Nat.eq_of_testBit_eq
  intro i
  rw [Nat.testBit_shiftRight, Nat.testBit_and, Nat.testBit_shiftLeft,
    Nat.testBit_two_pow_sub_one, Nat.testBit_mod_two_pow, Nat.testBit_shiftRight]
  by_cases h : i < k
  · simp [h]
  · simp [h]

/-- A single-bit mask is zero on a word exactly when that bit is clear. -/
theorem and_two_pow_eq_zero (x k : Nat) : x &&& 2 ^ k = 0 ↔ Nat.testBit x k = false := by
  constructor
  · intro h
    have h1 : Nat.testBit (x &&& 2 ^ k) k = false := by
      rw [h]
      exact Nat.zero_testBit k
    rw [Nat.testBit_and, Nat.testBit_two_pow_self] at h1
    simpa using h1
  · intro h
    apply Nat.eq_of_testBit_eq
    intro i
    rw [Nat.testBit_and, Nat.testBit_two_pow, Nat.zero_testBit]
    by_cases hk : k = i
    · subst hk
      simp [h]
    · simp [hk]

/-- The loop of `heap` never moves the static `mFreePages`. -/
theorem heapLink_freeVar (page : Nat) :
    ∀ (n i : Nat) (s : Machine), (heapLink page n i s).freeVar = s.freeVar := by
  intro n
  induction n with
  | zero => intro i s; rfl
  | succ n ih =>
    intro i s
    show (heapLink page n (i + 1) _).freeVar = s.freeVar
    rw [ih]
    rfl

/-- The list head `heap` leaves behind when it computes at least one frame. -/
theorem heap_mFreePages (s : Machine) (phys size : Nat) (h : heapNumOfPages phys size ≠ 0) :
    (heap s phys size).mFreePages =
      (kalignUp phys 12 + ((heapNumOfPages phys size + WORD - 2) % WORD) * SIZEOF_TABLE) % WORD := by
  unfold heap
  simp only [h, if_false]
  exact write_mem_same _ _ _

/-! ## checkFlags, heap wrap-around, deallocate, descriptor packing: claims -/

/-- C21 (the code departs from the claim): `checkFlags(entry, flags)` is true
exactly when some requested flag bit (within FLAGS_MASK) is missing from the
entry, the opposite of the claim; for the PRESENT entry 0x3 it is false and for
the empty entry 0 it is true. -/
theorem checkFlags_is_inverted :
    (∀ entry flags, checkFlags entry flags = true ↔
      entry &&& (flags &&& FLAGS_MASK) ≠ flags &&& FLAGS_MASK) ∧
    0x3 &&& PRESENT = PRESENT ∧ checkFlags 0x3 PRESENT = false ∧
    0x0 &&& PRESENT ≠ PRESENT ∧ checkFlags 0x0 PRESENT = true := by
  refine ⟨?_, by decide, by decide, by decide, by decide⟩
  intro entry flags
  unfold checkFlags
  simp only [bne_iff_ne, ne_eq]
  exact ⟨fun h e => h e.symm, fun h e => h e.symm⟩

/-- C22 (the code departs from the claim): for start 0x100001 and size 16 the
15 bytes are fewer than the 4095 skipped by rounding up, yet `heap` computes
2^52 - 1 frames (the subtraction wraps modulo 2^64) and moves the list head of
the empty allocator from the static itself (0x10F008) to 0xFE000. -/
theorem heap_size_wraps :
    heapNumOfPages 0x100001 16 = 4503599627370495 ∧
    bootMachine.mFreePages = 0x10F008 ∧
    (heap bootMachine 0x100001 16).mFreePages = 0xFE000 := by
  refine ⟨by decide, by decide, ?_⟩
  rw [heap_mFreePages bootMachine 0x100001 16 (by decide)]
  decide

/-- C23: `deallocate` of a 4 KiB-aligned frame makes the frame the list head
and stores the previous head in the first word of the frame; every other word
of memory, the rest of the frame included, and the registers keep their
values. -/
theorem deallocate_writes_two_words (s : Machine) (page : Nat) (h : page % 4096 = 0) :
    (deallocate s page).mFreePages = page ∧
    (page ≠ s.freeVar → (deallocate s page).mem page = s.mFreePages) ∧
    (∀ a, a ≠ page → a ≠ s.freeVar → (deallocate s page).mem a = s.mem a) ∧
    (deallocate s page).freeVar = s.freeVar ∧
    (deallocate s page).cr0 = s.cr0 ∧ (deallocate s page).cr3 = s.cr3 ∧
    (deallocate s page).cr4 = s.cr4 := by
  have hk : kalignCheck page 12 = true := (kalignCheck_twelve page).2 h
  have hd : deallocate s page = (s.write page s.mFreePages).write s.freeVar page := by
    simp [deallocate, hk, Machine.write]
  rw [hd]
  refine ⟨?_, ?_, ?_, rfl, rfl, rfl, rfl⟩
  · exact write_mem_same _ _ _
  · intro hne
    rw [write_mem_other _ _ _ _ hne, write_mem_same]
  · intro a h1 h2
    rw [write_mem_other _ _ _ _ h2, write_mem_other _ _ _ _ h1]

/-- Witness of C23: frame 0x200000 handed to the pool of three frames; the
word at 0x200008 inside the frame keeps its value. -/
theorem deallocate_writes_two_words_witness :
    (deallocate threeFrameMachine 0x200000).mFreePages = 0x200000 ∧
    (deallocate threeFrameMachine 0x200000).mem 0x200000 = threeFrameMachine.mFreePages ∧
    (deallocate threeFrameMachine 0x200000).mem 0x200008 = threeFrameMachine.mem 0x200008 :=
  ⟨(deallocate_writes_two_words threeFrameMachine 0x200000 (by decide)).1,
   (deallocate_writes_two_words threeFrameMachine 0x200000 (by decide)).2.1 (by decide),
   (deallocate_writes_two_words threeFrameMachine 0x200000 (by decide)).2.2.1 0x200008
     (by decide) (by decide)⟩

/-- C29: `idt::setEntry` packs the handler address without loss: for every
64-bit address `a`, selector `sel` and type `t`, the three offset fields put
back together give `a`, each field fits its width, and `selector = sel`,
`type = t`, `ist = 0`, `reserved2 = 0`. -/
theorem setEntry_lossless (a sel t : Nat) (ha : a < 2 ^ 64) :
    (idt.setEntry a sel t).offsetLow + (idt.setEntry a sel t).offsetMiddle * 2 ^ 16 +
      (idt.setEntry a sel t).offsetHigh * 2 ^ 32 = a ∧
    (idt.setEntry a sel t).offsetLow < 2 ^ 16 ∧
    (idt.setEntry a sel t).offsetMiddle < 2 ^ 16 ∧
    (idt.setEntry a sel t).offsetHigh < 2 ^ 32 ∧
    (idt.setEntry a sel t).selector = sel ∧
    (idt.setEntry a sel t).type = t ∧
    (idt.setEntry a sel t).ist = 0 ∧
    (idt.setEntry a sel t).reserved2 = 0 := by
  have h1 : a &&& 0xFFFF = a % 2 ^ 16 := by
    rw [show (0xFFFF : Nat) = 2 ^ 16 - 1 by norm_num, Nat.and_pow_two_sub_one_eq_mod]
  have h2 : (a &&& 0xFFFF0000) >>> 16 = (a >>> 16) % 2 ^ 16 := by
    rw [show (0xFFFF0000 : Nat) = (2 ^ 16 - 1) <<< 16 by decide, and_shifted_mask]
  have h3 : (a &&& 0xFFFFFFFF00000000) >>> 32 = (a >>> 32) % 2 ^ 32 := by
    rw [show (0xFFFFFFFF00000000 : Nat) = (2 ^ 32 - 1) <<< 32 by decide, and_shifted_mask]
  simp only [idt.setEntry, h1, h2, h3, Nat.shiftRight_eq_div_pow]
  norm_num at ha ⊢
  omega

/-- Witness of C29: the address 0x123456789ABCDEF0 with selector 0x08 and type
0x8E, as `idt::init` passes them. -/
theorem setEntry_lossless_witness :
    (idt.setEntry 0x123456789ABCDEF0 0x08 0x8E).offsetLow +
      (idt.setEntry 0x123456789ABCDEF0 0x08 0x8E).offsetMiddle * 2 ^ 16 +
      (idt.setEntry 0x123456789ABCDEF0 0x08 0x8E).offsetHigh * 2 ^ 32 = 0x123456789ABCDEF0 :=
  (setEntry_lossless 0x123456789ABCDEF0 0x08 0x8E (by decide)).1

/-! ## i386 helper lemmas -/

/-- Memory after the first loop of `pagingSetup`. -/
theorem i386.clearDirectory_mem (pd : Nat) :
    ∀ (n i : Nat) (s : i386.Machine) (a : Nat),
      (i386.clearDirectory pd n i s).mem a =
        if pd + 4 * i ≤ a ∧ a < pd + 4 * (i + n) ∧ (a - pd) % 4 = 0 then 0 else s.mem a := by
  intro n
  induction n with
  | zero =>
    intro i s a
    have : ¬ (pd + 4 * i ≤ a ∧ a < pd + 4 * (i + 0) ∧ (a - pd) % 4 = 0) := by omega
    rw [if_neg this]
    rfl
  | succ n ih =>
    intro i s a
    show (i386.clearDirectory pd n (i + 1) (s.write (pd + 4 * i) i386.CLEAR)).mem a = _
    rw [ih]
    simp only [i386.Machine.write, i386.CLEAR]
    split_ifs <;> first | rfl | omega

/-- Memory after the second loop of `pagingSetup`. -/
theorem i386.fillTable_mem (pt : Nat) :
    ∀ (n j : Nat) (s : i386.Machine) (a : Nat),
      (i386.fillTable pt n j s).mem a =
        if pt + 4 * j ≤ a ∧ a < pt + 4 * (j + n) ∧ (a - pt) % 4 = 0 then
          ((((a - pt) / 4) <<< 12) % i386.DWORD) ||| 3
        else s.mem a := by
  intro n
  induction n with
  | zero =>
    intro j s a
    have : ¬ (pt + 4 * j ≤ a ∧ a < pt + 4 * (j + 0) ∧ (a - pt) % 4 = 0) := by omega
    rw [if_neg this]
    rfl
  | succ n ih =>
    intro j s a
    show (i386.fillTable pt n (j + 1) _).mem a = _
    rw [ih]
    simp only [i386.Machine.write, i386.WRITABLE, i386.PRESENT, if_true]
    by_cases h1 : pt + 4 * (j + 1) ≤ a ∧ a < pt + 4 * (j + 1 + n) ∧ (a - pt) % 4 = 0
    · rw [if_pos h1, if_pos (by omega)]
    · rw [if_neg h1]
      by_cases h2 : a = pt + 4 * j
      · subst h2
        rw [if_pos rfl, if_pos (by omega)]
        have : (pt + 4 * j - pt) / 4 = j := by omega
        rw [this]
        rfl
      · have h3 : ¬ (pt + 4 * j ≤ a ∧ a < pt + 4 * (j + (n + 1)) ∧ (a - pt) % 4 = 0) := by omega
        rw [if_neg h3]
        simp only [h2, if_false]
/-- Memory after `pagingSetup`, word by word. -/
theorem i386.pagingSetup_mem (s : i386.Machine) (pd pt a : Nat) :
    (i386.pagingSetup s pd pt).mem a =
      if a = pd + 4 * 1023 then (pd % i386.DWORD) ||| 3
      else if a = pd + 4 * 768 then (pt % i386.DWORD) ||| 3
      else if pt ≤ a ∧ a < pt + 4096 ∧ (a - pt) % 4 = 0 then
        ((((a - pt) / 4) <<< 12) % i386.DWORD) ||| 3
      else if a = pd then (pt % i386.DWORD) ||| 3
      else if pd ≤ a ∧ a < pd + 4096 ∧ (a - pd) % 4 = 0 then 0
      else s.mem a := by
  have e3 : (i386.WRITABLE ||| i386.PRESENT : Nat) = 3 := by decide
  have hw : ∀ (t : i386.Machine) (x v b : Nat),
      (t.write x v).mem b = if b = x then v else t.mem b := fun _ _ _ _ => rfl
  have he : ∀ (t : i386.Machine), (i386.pagingEnable t).mem = t.mem := fun _ => rfl
  have hp : ∀ (t : i386.Machine) (x : Nat), (i386.pagingSetupPD t x).mem = t.mem :=
    fun _ _ => rfl
  unfold i386.pagingSetup
  simp only [he, hp, hw, i386.fillTable_mem, i386.clearDirectory_mem, e3, if_true]
  split_ifs <;> first | rfl | omega

/-- Address bits of an aligned 32-bit address tagged with WRITABLE|PRESENT. -/
theorem i386.entry_address (x : Nat) (hx : x % 4096 = 0) (h32 : x < 2 ^ 32) :
    (x ||| 3) &&& 0xFFFFF000 = x := by
  apply Nat.eq_of_testBit_eq
  intro i
  have hm : Nat.testBit 0xFFFFF000 i = decide (12 ≤ i ∧ i < 32) := by
    have h : (0xFFFFF000 : Nat) = (2 ^ 20 - 1) <<< 12 := by decide
    rw [h, Nat.testBit_shiftLeft, Nat.testBit_two_pow_sub_one]
    by_cases h1 : 12 ≤ i
    · by_cases h2 : i < 32
      · have : i - 12 < 20 := by omega
        simp [h1, h2, this]
      · have : ¬ i - 12 < 20 := by omega
        simp [h1, h2, this]
    · simp [h1]
  have h3 : Nat.testBit 3 i = decide (i < 2) := by
    rw [show (3 : Nat) = 2 ^ 2 - 1 by norm_num, Nat.testBit_two_pow_sub_one]
  rw [Nat.testBit_and, Nat.testBit_or, hm, h3]
  by_cases h1 : i < 12
  · have := testBit_of_aligned x i hx h1
    simp [this]
    omega
  · by_cases h2 : i < 32
    · have h4 : ¬ i < 2 := by omega
      have h5 : 12 ≤ i := by omega
      simp [h2, h4, h5]
    · have : Nat.testBit x i = false := by
        apply Nat.testBit_lt_two_pow
        calc x < 2 ^ 32 := h32
          _ ≤ 2 ^ i := Nat.pow_le_pow_right (by norm_num) (by omega)
      simp [this, h2]

/-- An entry tagged with WRITABLE|PRESENT has bit 0 set. -/
theorem i386.entry_present (x : Nat) : (x ||| 3) &&& 1 = 1 := by
  apply Nat.eq_of_testBit_eq
  intro i
  have h3 : Nat.testBit 3 i = decide (i < 2) := by
    rw [show (3 : Nat) = 2 ^ 2 - 1 by norm_num, Nat.testBit_two_pow_sub_one]
  rw [Nat.testBit_and, Nat.testBit_or, h3, testBit_present]
  by_cases h : 0 = i
  · subst h
    simp
  · simp [h]

/-- Translation of an address of the first 4 MiB, or of its mirror at 3 GiB,
after `pagingSetup`. -/
theorem i386.setup_translation (s : i386.Machine) (pd pt v : Nat)
    (hpd : pd % 4096 = 0) (hpt : pt % 4096 = 0) (hne : pd ≠ pt) (h32 : pt < 2 ^ 32)
    (hv : v < 0x400000) :
    i386.pagingVirtToPhys (i386.pagingSetup s pd pt) pd v = v ∧
    i386.pagingVirtToPhys (i386.pagingSetup s pd pt) pd (0xC0000000 + v) = v := by
  have hmask1 : ∀ w, (w &&& 0xFFC00000) >>> 22 = (w >>> 22) % 2 ^ 10 := by
    intro w
    rw [show (0xFFC00000 : Nat) = (2 ^ 10 - 1) <<< 22 by decide, and_shifted_mask]
  have hmask2 : ∀ w, (w &&& 0x3FF000) >>> 12 = (w >>> 12) % 2 ^ 10 := by
    intro w
    rw [show (0x3FF000 : Nat) = (2 ^ 10 - 1) <<< 12 by decide, and_shifted_mask]
  have hoff : ∀ w, w &&& 0xFFF = w % 4096 := by
    intro w
    rw [show (0xFFF : Nat) = 2 ^ 12 - 1 by norm_num, Nat.and_pow_two_sub_one_eq_mod]
  have hptD : pt % i386.DWORD = pt := Nat.mod_eq_of_lt h32
  have key : ∀ w idx, w / 4096 % 1024 = v / 4096 → w % 4096 = v % 4096 →
      (w >>> 22) % 2 ^ 10 = idx → (idx = 0 ∨ idx = 768) →
      i386.pagingVirtToPhys (i386.pagingSetup s pd pt) pd w = v := by
    intro w idx hq hr hidx hcase
    have hq' : (w >>> 12) % 2 ^ 10 = v / 4096 := by
      rw [Nat.shiftRight_eq_div_pow]
      norm_num
      exact hq
    have hdir : (i386.pagingSetup s pd pt).mem (pd + 4 * idx) = pt ||| 3 := by
      rw [i386.pagingSetup_mem, hptD]
      rcases hcase with h | h
      · subst h
        rw [if_neg (by omega), if_neg (by omega), if_neg (by omega), if_pos (by omega)]
      · subst h
        rw [if_neg (by omega), if_pos rfl]
    have hshift : (v / 4096) <<< 12 % i386.DWORD = 4096 * (v / 4096) := by
      rw [Nat.shiftLeft_eq]
      simp only [i386.DWORD]
      norm_num
      omega
    have htab : (i386.pagingSetup s pd pt).mem (pt + 4 * (v / 4096)) = 4096 * (v / 4096) ||| 3 := by
      rw [i386.pagingSetup_mem]
      rw [if_neg (by omega), if_neg (by omega), if_pos (by omega)]
      have : (pt + 4 * (v / 4096) - pt) / 4 = v / 4096 := by omega
      rw [this, hshift]
    unfold i386.pagingVirtToPhys
    simp only [hmask1, hmask2, hidx, hq', hdir, i386.PRESENT, i386.CLEAR, i386.entry_present,
      i386.entry_address pt hpt h32, htab, hoff, hr]
    rw [i386.entry_address (4096 * (v / 4096)) (by omega) (by omega)]
    simp only [Nat.one_ne_zero, if_false]
    have h := Nat.mul_add_lt_is_or (show v % 4096 < 2 ^ 12 by omega) (v / 4096)
    norm_num at h
    rw [← h]
    omega
  constructor
  · exact key v 0 (by omega) rfl (by rw [Nat.shiftRight_eq_div_pow]; norm_num; omega) (Or.inl rfl)
  · exact key (0xC0000000 + v) 768 (by omega) (by omega)
      (by rw [Nat.shiftRight_eq_div_pow]; norm_num; omega) (Or.inr rfl)
/-- A bitwise or is zero exactly when both operands are. -/
theorem lor_eq_zero (a b : Nat) : a ||| b = 0 ↔ a = 0 ∧ b = 0 := by
  constructor
  · intro h
    have hb : ∀ i, Nat.testBit a i = false ∧ Nat.testBit b i = false := by
      intro i
      have h1 : Nat.testBit (a ||| b) i = false := by
        rw [h]
        exact Nat.zero_testBit i
      rw [Nat.testBit_or] at h1
      simpa using h1
    constructor
    · apply Nat.eq_of_testBit_eq
      intro i
      rw [(hb i).1, Nat.zero_testBit]
    · apply Nat.eq_of_testBit_eq
      intro i
      rw [(hb i).2, Nat.zero_testBit]
  · rintro ⟨rfl, rfl⟩
    rfl

/-- The mask 0x18 is zero on a word exactly when bits 3 and 4 are both clear. -/
theorem and_cause_mask_eq_zero (x : Nat) :
    x &&& 0x18 = 0 ↔ Nat.testBit x 3 = false ∧ Nat.testBit x 4 = false := by
  have h : (0x18 : Nat) = 2 ^ 3 ||| 2 ^ 4 := by decide
  rw [h, Nat.and_or_distrib_left, lor_eq_zero, and_two_pow_eq_zero, and_two_pow_eq_zero]

/-- The tests of the two fault handlers, phrased on the bits of the mask. -/
theorem fault_tests (param : Nat) :
    (param &&& 0x10 = 0 ↔ Nat.testBit param 4 = false) ∧
    (param &&& 0x08 = 0 ↔ Nat.testBit param 3 = false) ∧
    (param &&& 0x04 = 0 ↔ Nat.testBit param 2 = false) ∧
    (param &&& 0x02 = 0 ↔ Nat.testBit param 1 = false) ∧
    (param &&& 0x01 = 0 ↔ Nat.testBit param 0 = false) := by
  refine ⟨?_, ?_, ?_, ?_, ?_⟩
  · exact and_two_pow_eq_zero param 4
  · exact and_two_pow_eq_zero param 3
  · exact and_two_pow_eq_zero param 2
  · exact and_two_pow_eq_zero param 1
  · exact and_two_pow_eq_zero param 0

/-- C24: for every fault cause bitmask both page-fault handlers decode it the
same way: the access type is "WRITE" exactly when bit 1 is set and "READ"
otherwise, the origin is "USER" exactly when bit 2 is set and "KERNEL"
otherwise, the presence word is "PRESENT" exactly when bit 0 is clear and
"PRIVILEGED" otherwise; the i386 handler writes the very strings the x86_64
handler selects, the presence word followed by the line end. -/
theorem fault_decoding (param : Nat) (text : String) :
    (exHandler param).access = (if Nat.testBit param 1 then "WRITE" else "READ") ∧
    (exHandler param).origin = (if Nat.testBit param 2 then "USER" else "KERNEL") ∧
    (exHandler param).presence = (if Nat.testBit param 0 then "PRIVILEGED" else "PRESENT") ∧
    i386.pagingFaultExceptionHandler text param =
      [ "CAUSED BY:\t",
        (exHandler param).violation,
        (exHandler param).fetch,
        (exHandler param).reserved,
        "\r\nFROM:\t\t",
        if Nat.testBit param 2 then "USER" else "KERNEL",
        " space\r\n",
        "WHEN:\t\tattempting to ",
        if Nat.testBit param 1 then "WRITE" else "READ",
        "\r\nADDRESS:\t0x",
        text,
        "\r\nWHICH IS:\tNON-",
        (if Nat.testBit param 0 then "PRIVILEGED" else "PRESENT") ++ "\r\n",
        "\r\n" ] := by
  obtain ⟨_, _, h2, h1, h0⟩ := fault_tests param
  unfold exHandler i386.pagingFaultExceptionHandler
  simp only [h2, h1, h0]
  cases Nat.testBit param 0 <;> cases Nat.testBit param 1 <;> cases Nat.testBit param 2 <;>
    simp

/-- C27 as stated fails: for the cause bitmask 0x18 two of the three cause
descriptions are non-empty, in both handlers, and the CAUSED BY line of the
x86_64 report names both. -/
theorem cause_line_two_causes :
    ([(exHandler 0x18).violation, (exHandler 0x18).fetch, (exHandler 0x18).reserved].filter
      (fun c => c ≠ "")).length = 2 ∧
    (exHandler 0x18).lines.head? = some "CAUSED BY:\tINSTRUCTION FETCHRESERVED BIT SET\r\n" ∧
    (i386.pagingFaultExceptionHandler "0" 0x18).take 4 =
      ["CAUSED BY:\t", "", "INSTRUCTION FETCH", "RESERVED BIT SET"] := by
  decide

/-- C27 as amended: for every fault cause bitmask at least one cause
description is non-empty; when bits 3 and 4 are both set the line names the two
causes "INSTRUCTION FETCH" and "RESERVED BIT SET", otherwise exactly one of the
three descriptions is non-empty; the i386 handler writes the same three
strings. -/
theorem cause_line_causes (param : Nat) :
    (Nat.testBit param 3 = true ∧ Nat.testBit param 4 = true →
      (exHandler param).violation = "" ∧ (exHandler param).fetch = "INSTRUCTION FETCH" ∧
      (exHandler param).reserved = "RESERVED BIT SET") ∧
    (¬ (Nat.testBit param 3 = true ∧ Nat.testBit param 4 = true) →
      ([(exHandler param).violation, (exHandler param).fetch, (exHandler param).reserved].filter
        (fun c => c ≠ "")).length = 1) ∧
    (∀ text, (i386.pagingFaultExceptionHandler text param).take 4 =
      ["CAUSED BY:\t", (exHandler param).violation, (exHandler param).fetch,
        (exHandler param).reserved]) := by
  obtain ⟨h4, h3, _, _, _⟩ := fault_tests param
  have h34 := and_cause_mask_eq_zero param
  unfold exHandler i386.pagingFaultExceptionHandler
  simp only [h4, h3, h34]
  cases Nat.testBit param 3 <;> cases Nat.testBit param 4 <;> simp
/-- Witness of C27 as amended: mask 0x18 has bits 3 and 4 set, mask 0x10 has
not. -/
theorem cause_line_causes_witness :
    (exHandler 0x18).fetch = "INSTRUCTION FETCH" ∧
    ([(exHandler 0x10).violation, (exHandler 0x10).fetch, (exHandler 0x10).reserved].filter
      (fun c => c ≠ "")).length = 1 :=
  ⟨((cause_line_causes 0x18).1 (by decide)).2.1, (cause_line_causes 0x10).2.1 (by decide)⟩

/-! ## i386 paging: claims -/

/-- Both table entries on the path of an address of the first 4 MiB are
PRESENT after `pagingSetup`. -/
theorem i386.setup_entries_present (s : i386.Machine) (pd pt v : Nat)
    (hpd : pd % 4096 = 0) (hpt : pt % 4096 = 0) (hne : pd ≠ pt) (h32 : pt < 2 ^ 32)
    (hv : v < 0x400000) :
    i386.directoryEntry (i386.pagingSetup s pd pt) pd v &&& i386.PRESENT = i386.PRESENT ∧
    i386.tableEntry (i386.pagingSetup s pd pt) pd v &&& i386.PRESENT = i386.PRESENT := by
  have hmask1 : (v &&& 0xFFC00000) >>> 22 = (v >>> 22) % 2 ^ 10 := by
    rw [show (0xFFC00000 : Nat) = (2 ^ 10 - 1) <<< 22 by decide, and_shifted_mask]
  have hmask2 : (v &&& 0x3FF000) >>> 12 = (v >>> 12) % 2 ^ 10 := by
    rw [show (0x3FF000 : Nat) = (2 ^ 10 - 1) <<< 12 by decide, and_shifted_mask]
  have hidx : (v >>> 22) % 2 ^ 10 = 0 := by
    rw [Nat.shiftRight_eq_div_pow]
    norm_num
    omega
  have hq : (v >>> 12) % 2 ^ 10 = v / 4096 := by
    rw [Nat.shiftRight_eq_div_pow]
    norm_num
    omega
  have hptD : pt % i386.DWORD = pt := Nat.mod_eq_of_lt h32
  have hdir : (i386.pagingSetup s pd pt).mem (pd + 4 * 0) = pt ||| 3 := by
    rw [i386.pagingSetup_mem, hptD]
    rw [if_neg (by omega), if_neg (by omega), if_neg (by omega), if_pos (by omega)]
  have hd : i386.directoryEntry (i386.pagingSetup s pd pt) pd v = pt ||| 3 := by
    unfold i386.directoryEntry
    simp only [hmask1, hidx, hdir]
  have ht : ∃ x, i386.tableEntry (i386.pagingSetup s pd pt) pd v = x ||| 3 := by
    unfold i386.tableEntry
    simp only [hd, hmask2, hq, i386.entry_address pt hpt h32]
    rw [i386.pagingSetup_mem]
    rw [if_neg (by omega), if_neg (by omega), if_pos (by omega)]
    exact ⟨_, rfl⟩
  obtain ⟨x, hx⟩ := ht
  rw [hd, hx]
  exact ⟨i386.entry_present pt, i386.entry_present x⟩

/-- C25: after the i386 `pagingSetup`, with `pageDirectory` and `pageTable`
two distinct 4 KiB-aligned arrays, every address `v` of the first 4 MiB
translates to itself, and so does its mirror: `pagingVirtToPhys(v) = v` and
`pagingVirtToPhys(0xC0000000 + v) = v`. -/
theorem pagingSetup_identity_map (s : i386.Machine) (pageDirectory pageTable v : Nat)
    (hpd : pageDirectory % 4096 = 0) (hpt : pageTable % 4096 = 0)
    (hne : pageDirectory ≠ pageTable) (h32 : pageTable < 2 ^ 32) (hv : v < 0x400000) :
    i386.pagingVirtToPhys (i386.pagingSetup s pageDirectory pageTable) pageDirectory v = v ∧
    i386.pagingVirtToPhys (i386.pagingSetup s pageDirectory pageTable) pageDirectory
      (0xC0000000 + v) = v :=
  i386.setup_translation s pageDirectory pageTable v hpd hpt hne h32 hv

/-- Witness of C25: directory at 0x105000, table at 0x106000, address
0x123456. -/
theorem pagingSetup_identity_map_witness :
    i386.pagingVirtToPhys (i386.pagingSetup i386.bootMachine 0x105000 0x106000) 0x105000
      0x123456 = 0x123456 ∧
    i386.pagingVirtToPhys (i386.pagingSetup i386.bootMachine 0x105000 0x106000) 0x105000
      (0xC0000000 + 0x123456) = 0x123456 :=
  pagingSetup_identity_map i386.bootMachine 0x105000 0x106000 0x123456
    (by decide) (by decide) (by decide) (by decide) (by decide)

/-- C26: after the i386 `pagingSetup` every page-directory entry other than 0,
768 and 1023 is CLEAR, and `pagingVirtToPhys` returns null for every 32-bit
virtual address whose directory index (bits 22-31) is none of 0, 768, 1023. -/
theorem pagingSetup_other_entries_clear (s : i386.Machine) (pageDirectory pageTable : Nat)
    (hpd : pageDirectory % 4096 = 0) (hpt : pageTable % 4096 = 0)
    (hne : pageDirectory ≠ pageTable) :
    (∀ i, i < 1024 → i ≠ 0 → i ≠ 768 → i ≠ 1023 →
      (i386.pagingSetup s pageDirectory pageTable).mem (pageDirectory + 4 * i) = i386.CLEAR) ∧
    (∀ v, v < 2 ^ 32 → v / 2 ^ 22 ≠ 0 → v / 2 ^ 22 ≠ 768 → v / 2 ^ 22 ≠ 1023 →
      i386.pagingVirtToPhys (i386.pagingSetup s pageDirectory pageTable) pageDirectory v = 0) := by
  have hclear : ∀ i, i < 1024 → i ≠ 0 → i ≠ 768 → i ≠ 1023 →
      (i386.pagingSetup s pageDirectory pageTable).mem (pageDirectory + 4 * i) = i386.CLEAR := by
    intro i hi h0 h768 h1023
    rw [i386.pagingSetup_mem]
    rw [if_neg (by omega), if_neg (by omega), if_neg (by omega), if_neg (by omega),
      if_pos (by omega)]
    rfl
  refine ⟨hclear, ?_⟩
  intro v hv h0 h768 h1023
  have hmask1 : (v &&& 0xFFC00000) >>> 22 = (v >>> 22) % 2 ^ 10 := by
    rw [show (0xFFC00000 : Nat) = (2 ^ 10 - 1) <<< 22 by decide, and_shifted_mask]
  have hidx : (v >>> 22) % 2 ^ 10 = v / 2 ^ 22 := by
    rw [Nat.shiftRight_eq_div_pow]
    norm_num at hv ⊢
    omega
  have hlt : v / 2 ^ 22 < 1024 := by
    norm_num at hv ⊢
    omega
  unfold i386.pagingVirtToPhys
  simp only [hmask1, hidx, hclear (v / 2 ^ 22) hlt h0 h768 h1023]
  simp [i386.CLEAR]

/-- Witness of C26: directory at 0x105000, table at 0x106000; entry 5 is
CLEAR and the address 0x40000000 (directory index 256) is unmapped. -/
theorem pagingSetup_other_entries_clear_witness :
    (i386.pagingSetup i386.bootMachine 0x105000 0x106000).mem (0x105000 + 4 * 5) = i386.CLEAR ∧
    i386.pagingVirtToPhys (i386.pagingSetup i386.bootMachine 0x105000 0x106000) 0x105000
      0x40000000 = 0 :=
  ⟨(pagingSetup_other_entries_clear i386.bootMachine 0x105000 0x106000
      (by decide) (by decide) (by decide)).1 5 (by decide) (by decide) (by decide) (by decide),
   (pagingSetup_other_entries_clear i386.bootMachine 0x105000 0x106000
      (by decide) (by decide) (by decide)).2 0x40000000 (by decide) (by decide) (by decide)
      (by decide)⟩

/-- C28 as stated fails: after the i386 `pagingSetup` (directory at 0x105000,
table at 0x106000) both entries on the path of virtual address 0 are PRESENT,
yet `pagingVirtToPhys(0)` is the null pointer: address 0 translates to
physical address 0. -/
theorem present_path_yields_null :
    i386.directoryEntry (i386.pagingSetup i386.bootMachine 0x105000 0x106000) 0x105000 0
      &&& i386.PRESENT = i386.PRESENT ∧
    i386.tableEntry (i386.pagingSetup i386.bootMachine 0x105000 0x106000) 0x105000 0
      &&& i386.PRESENT = i386.PRESENT ∧
    i386.pagingVirtToPhys (i386.pagingSetup i386.bootMachine 0x105000 0x106000) 0x105000 0 = 0 :=
  ⟨(i386.setup_entries_present i386.bootMachine 0x105000 0x106000 0
      (by decide) (by decide) (by decide) (by decide) (by decide)).1,
   (i386.setup_entries_present i386.bootMachine 0x105000 0x106000 0
      (by decide) (by decide) (by decide) (by decide) (by decide)).2,
   (i386.setup_translation i386.bootMachine 0x105000 0x106000 0
      (by decide) (by decide) (by decide) (by decide) (by decide)).1⟩

/-- C28 as amended: `pagingVirtToPhys` returns the null pointer exactly when
the directory entry on the path is not PRESENT, or the table entry on the path
is not PRESENT, or both are PRESENT and the physical address it computes is
itself 0 (frame 0 and offset 0). -/
theorem pagingVirtToPhys_null_cases (s : i386.Machine) (pageDirectory v : Nat) :
    i386.pagingVirtToPhys s pageDirectory v = 0 ↔
      (i386.directoryEntry s pageDirectory v &&& i386.PRESENT = i386.CLEAR ∨
       i386.tableEntry s pageDirectory v &&& i386.PRESENT = i386.CLEAR ∨
       (i386.tableEntry s pageDirectory v &&& 0xFFFFF000 = 0 ∧ v &&& 0xFFF = 0)) := by
  unfold i386.pagingVirtToPhys i386.tableEntry i386.directoryEntry
  dsimp only
  split_ifs with h1 h2
  · simp [h1]
  · simp [h1, h2]
  · rw [lor_eq_zero]
    simp [h1, h2]

end igros.arch
